import Mathlib

/-!
Verification development for the `auto-editor` expression-language
implementation (`auto_editor/interpreter.py` and
`auto_editor/subcommands/repl.py`): a lexer, a recursive-descent parser and a
tree-walking evaluator over a tagged value union with a single mutable global
environment.

Modelling conventions:
* Python `int` is `ℤ`; Python `Fraction` is `ℚ` (both auto-normalize, `ℚ` is
  normalized by construction).  Python `float` payloads are modelled as `ℚ`;
  no claim in this development depends on binary floating-point rounding, the
  tag (exact vs. inexact) is what the claims are about.  Likewise `complex`
  payloads are pairs of `ℚ`.
* Python `None` (the "no value" result of `define`, `set!`, a false `when`,
  `display`, `begin` with no args) is the value `Value.none`.
* Exceptions carry the state at raise time (Python exceptions do not roll
  back mutations), so evaluation results are `Res α = ok α st | err e st`.
* The evaluator's recursion is fueled so that every definition reduces in the
  kernel; the Python original has no fuel, and every theorem is stated
  fuel-parametrically (at a matching or arbitrary fuel).
-/

namespace AutoEditor

/-- Payload of a numeric token / `Num` AST node: Python `int`, `Fraction`,
`float` or `complex` (see the modelling conventions above for the float and
complex payloads). -/
inductive PyNum where
  | int (n : ℤ)
  | frac (q : ℚ)
  | float (q : ℚ)
  | complex (re im : ℚ)
deriving DecidableEq, Repr

/-- The per-argument type contracts that appear in `Interpreter.GLOBAL_SCOPE`
(`is_num`, `is_real`, ...).  Python passes the predicate functions themselves;
each carries a `__doc__` string used in the "expects" error message.  We name
them with an enum and give the check and the doc as functions. -/
inductive Contract where
  | isBoolarr
  | isBool
  | isNum
  | isPair
  | isReal
  | isEint
  | isExact
  | isStr
  | isChar
  | isIterable
  | isInt
deriving DecidableEq, Repr

/-- Names for the builtin procedure implementations of the
`Interpreter.GLOBAL_SCOPE` table (the Python callables).  The dispatch
function `runProc` below gives each one its semantics. -/
inductive ProcImpl where
  | beginImpl
  | displayImpl
  | exitImpl
  | errorImpl
  | gt | ge | lt | le
  | numEq
  | notImpl
  | andImpl | orImpl | xorImpl
  | equalQ
  | listQ | pairQ | nullQ | numberQ | exactQ | inexactQ | realQ | integerQ
  | exactIntegerQ | positiveQ | negativeQ | zeroQ | booleanQ | stringQ | charQ
  | consImpl | car | cdr | listImpl | listRef | lengthImpl
  | stringImpl | stringAppend | stringUpcase | stringDowncase | stringTitlecase
  | stringLength | stringRef | numberToString
  | add | sub | mulImpl | divImpl | add1 | sub1 | expt | sqrtImpl
  | modImpl | realPart | imagPart
  | absImpl | ceilImpl | exactCeil | floorImpl | exactFloor
  | roundImpl | exactRound | maxImpl | minImpl
  | marginImpl | mincutImpl | minclipImpl | cookImpl
  | boolarrImpl | countNonzero | boolarrQ
deriving DecidableEq, Repr

/-- `Proc` dataclass: a name, a callable, an arity range
`(lower, upper?)` (upper `none` = open-ended) and optional per-argument
contracts. -/
structure ProcSpec where
  name : String
  impl : ProcImpl
  arity : ℕ × Option ℕ
  contracts : Option (List Contract)
deriving DecidableEq, Repr

/-- Runtime values: the closed tagged union the evaluator produces
(Python `bool`, `int`, `Fraction`, `float`, `complex`, `str`, `CharType`,
`Null`, `ConsType`, 1-d boolean `np.ndarray`, `Proc`), plus `Value.none`
for Python `None`. -/
inductive Value where
  | none
  | bool (b : Bool)
  | int (n : ℤ)
  | frac (q : ℚ)
  | float (q : ℚ)
  | complex (re im : ℚ)
  | str (s : String)
  | char (c : Char)
  | null
  | cons (a d : Value)
  | boolarr (xs : List Bool)
  | proc (p : ProcSpec)
deriving DecidableEq, Repr

def PyNum.toValue : PyNum → Value
  | .int n => .int n
  | .frac q => .frac q
  | .float q => .float q
  | .complex re im => .complex re im

/-- Error taxonomy.  `myError` is the interpreter's own `MyError` (caught and
reported by hosts); the others are Python exceptions the code can raise but
never catches (`ValueError` in `check_args`, `IndexError` on `types[-1]` of an
empty list or `childs[0]` of an empty form, `ZeroDivisionError` escaping
`mod`/`Fraction("n/0")`, `SystemExit` from `exit`, `TypeError` from a
mis-called callable).  `outOfFuel` is the embedding artifact of the fueled
recursion. -/
inductive Err where
  | myError (msg : String)
  | valueError (msg : String)
  | indexError (msg : String)
  | zeroDivisionError
  | sysExit (v : Value)
  | typeError (msg : String)
  | outOfFuel
  | notModelled (what : String)
deriving DecidableEq, Repr

/-- The mutable process state: the (class-level, shared) `GLOBAL_SCOPE` dict
and the text written to stdout so far. -/
structure InterpState where
  scope : List (String × Value)
  output : String
deriving DecidableEq, Repr

/-- Result of a stateful computation: Python exceptions do not undo prior
mutations, so the error case also carries the state. -/
inductive Res (α : Type) where
  | ok (a : α) (st : InterpState)
  | err (e : Err) (st : InterpState)
deriving DecidableEq, Repr

def Res.bind {α β : Type} : Res α → (α → InterpState → Res β) → Res β
  | .ok a st, f => f a st
  | .err e st, _ => .err e st

/-- Python dict lookup `d.get(k)` (first—and only—matching key). -/
def dictGet (d : List (String × Value)) (k : String) : Option Value :=
  (d.find? (fun p => p.1 = k)).map (fun p => p.2)

/-- Python dict membership `k in d`. -/
def dictHas (d : List (String × Value)) (k : String) : Bool :=
  d.any (fun p => p.1 = k)

/-- Python dict write `d[k] = v`: overwrite in place if the key exists,
append otherwise (dicts are insertion-ordered with unique keys). -/
def dictInsert (d : List (String × Value)) (k : String) (v : Value) :
    List (String × Value) :=
  if d.any (fun p => p.1 = k) then
    d.map (fun p => if p.1 = k then (k, v) else p)
  else
    d ++ [(k, v)]

/-- The apostrophe character (written via its code point to keep it out of
the source text). -/
def apos : Char := Char.ofNat 39

/-- The backtick character (written via its code point). -/
def btick : Char := Char.ofNat 96

/-- Numeric payload of a value viewed as a complex rational, `none` for
non-numbers.  Python `bool` is an `int` subclass (`True == 1`), so booleans
count as numbers for `==`. -/
def Value.toComplexPair : Value → Option (ℚ × ℚ)
  | .bool b => some (if b then 1 else 0, 0)
  | .int n => some ((n : ℚ), 0)
  | .frac q => some (q, 0)
  | .float q => some (q, 0)
  | .complex re im => some (re, im)
  | _ => Option.none

/-- Real payload as a rational.  Callers only use this after a
`real?`/`integer?`-style contract held; the 0 default for the remaining
constructors is unreachable from the evaluator. -/
def Value.toRealQ : Value → ℚ
  | .bool b => if b then 1 else 0
  | .int n => (n : ℚ)
  | .frac q => q
  | .float q => q
  | _ => 0

/-- Python numeric promotion rank: int(/bool) < Fraction < float < complex.
Non-numbers get rank 0; they never reach the arithmetic helpers (the `is_num`
/ `is_real` contracts run first). -/
def numRank : Value → ℕ
  | .frac _ => 1
  | .float _ => 2
  | .complex _ _ => 3
  | _ => 0

/-- Build a number of the given promotion rank from a complex-rational
payload.  At rank 0 both operands were ints, so the payload is integral. -/
def mkNum (rank : ℕ) (re im : ℚ) : Value :=
  if rank ≥ 3 then .complex re im
  else if rank = 2 then .float re
  else if rank = 1 then .frac re
  else .int re.num

def Value.asNum (v : Value) : ℚ × ℚ := v.toComplexPair.getD (0, 0)

/-- Python `a + b` on numbers. -/
def pyAdd (a b : Value) : Value :=
  mkNum (max (numRank a) (numRank b)) (a.asNum.1 + b.asNum.1) (a.asNum.2 + b.asNum.2)

/-- Python `a - b` on numbers. -/
def pySub (a b : Value) : Value :=
  mkNum (max (numRank a) (numRank b)) (a.asNum.1 - b.asNum.1) (a.asNum.2 - b.asNum.2)

/-- Python `a * b` on numbers (complex multiplication in general). -/
def pyMul (a b : Value) : Value :=
  mkNum (max (numRank a) (numRank b))
    (a.asNum.1 * b.asNum.1 - a.asNum.2 * b.asNum.2)
    (a.asNum.1 * b.asNum.2 + a.asNum.2 * b.asNum.1)

/-- Python unary `-a` on numbers. -/
def pyNeg (a : Value) : Value :=
  mkNum (numRank a) (-a.asNum.1) (-a.asNum.2)

/-- Python `a / b` (true division): int/int gives float, Fraction arithmetic
stays exact, float/complex contaminate; division by zero raises
`ZeroDivisionError`. -/
def pyDiv (a b : Value) : Except Err Value :=
  if b.asNum = (0, 0) then .error .zeroDivisionError
  else
    let rank := max (numRank a) (numRank b)
    let rank := if rank = 0 then 2 else rank
    let n := b.asNum.1 * b.asNum.1 + b.asNum.2 * b.asNum.2
    .ok (mkNum rank ((a.asNum.1 * b.asNum.1 + a.asNum.2 * b.asNum.2) / n)
      ((a.asNum.2 * b.asNum.1 - a.asNum.1 * b.asNum.2) / n))

/-- Python `==` between runtime values: numeric equality across
bool/int/Fraction/float/complex; strings, chars, `Null`, cons cells
(recursively, via `ConsType.__eq__`) and `Proc`s (dataclass field equality;
function identity is the `impl` name) structurally; everything else unequal.
Two arrays nested inside cons cells actually hit numpy elementwise `==` plus
truthiness in Python (raising for length > 1); we model that corner as list
equality — no claim depends on it, and `is_equal` intercepts the top-level
array/array case before `==`. -/
def pyEq : Value → Value → Bool
  | .cons a d, .cons a2 d2 => pyEq a a2 && pyEq d d2
  | .str s, .str t => s = t
  | .char c, .char c2 => c = c2
  | .null, .null => true
  | .none, .none => true
  | .boolarr xs, .boolarr ys => xs = ys
  | .proc p, .proc q => p = q
  | a, b =>
    match a.toComplexPair, b.toComplexPair with
    | some x, some y => x = y
    | _, _ => false

/-- `print_arr`. -/
def print_arr (xs : List Bool) : String :=
  "(boolarr" ++ String.join (xs.map (fun b => if b then " 1" else " 0")) ++ ")\n"

/-- Python `str()` of a number.  Float and complex formatting is
approximated (binary float repr is out of scope; no claim depends on it). -/
def pyNumStr : Value → String
  | .int n => toString n
  | .frac q => if q.den = 1 then toString q.num else toString q.num ++ "/" ++ toString q.den
  | .float q => if q.den = 1 then toString q.num ++ ".0" else toString (q : ℚ)
  | .complex re im =>
    "(" ++ toString re ++ (if im < 0 then "" else "+") ++ toString im ++ "j)"
  | _ => ""

mutual

/-- Python `str()` of a runtime value, as used in f-string error messages and
`display`.  The numpy array rendering is approximated (numpy formatting is
external; `display` uses `print_arr` for arrays anyway). -/
def pyStr : Value → String
  | .none => "None"
  | .bool b => if b then "True" else "False"
  | .int n => pyNumStr (.int n)
  | .frac q => pyNumStr (.frac q)
  | .float q => pyNumStr (.float q)
  | .complex re im => pyNumStr (.complex re im)
  | .str s => s
  | .char c => String.singleton c
  | .null => String.singleton apos ++ "()"
  | .cons a d => "(" ++ pyStr a ++ consTailStr d
  | .boolarr xs => "[" ++ String.intercalate " " (xs.map (fun b => if b then "True" else "False")) ++ "]"
  | .proc p => "#<procedure:" ++ p.name ++ ">"

/-- `ConsType.__repr__`'s tail loop: walk the `d` chain, then close with `)`
for a proper list or ` . tail)` for an improper one. -/
def consTailStr : Value → String
  | .cons a d => " " ++ pyStr a ++ consTailStr d
  | .null => ")"
  | t => " . " ++ pyStr t ++ ")"

end

/-- Per-contract predicate (the Python `is_*` functions).  Subtleties kept
from the source: `is_exact` has no bool guard (`isinstance(True, int)` holds,
so `(exact? #t)` is true), and `is_int` likewise falls back to
`isinstance(val, int)` which admits bools; `is_real`/`is_num`/`is_eint`
explicitly exclude bools.  `is_iterable` admits Python lists/ranges too, but
no runtime value is ever one of those. -/
def Contract.check : Contract → Value → Bool
  | .isBoolarr, .boolarr _ => true
  | .isBoolarr, _ => false
  | .isBool, .bool _ => true
  | .isBool, _ => false
  | .isNum, .int _ => true
  | .isNum, .frac _ => true
  | .isNum, .float _ => true
  | .isNum, .complex _ _ => true
  | .isNum, _ => false
  | .isPair, .cons _ _ => true
  | .isPair, _ => false
  | .isReal, .int _ => true
  | .isReal, .frac _ => true
  | .isReal, .float _ => true
  | .isReal, _ => false
  | .isEint, .int _ => true
  | .isEint, _ => false
  | .isExact, .bool _ => true
  | .isExact, .int _ => true
  | .isExact, .frac _ => true
  | .isExact, _ => false
  | .isStr, .str _ => true
  | .isStr, _ => false
  | .isChar, .char _ => true
  | .isChar, _ => false
  | .isIterable, .boolarr _ => true
  | .isIterable, .cons _ _ => true
  | .isIterable, .null => true
  | .isIterable, _ => false
  | .isInt, .float q => q.den = 1
  | .isInt, .frac q => q.den = 1
  | .isInt, .int _ => true
  | .isInt, .bool _ => true
  | .isInt, _ => false

/-- The `__doc__` string of each contract predicate. -/
def Contract.doc : Contract → String
  | .isBoolarr => "boolarr?"
  | .isBool => "boolean?"
  | .isNum => "number?"
  | .isPair => "pair?"
  | .isReal => "real?"
  | .isEint => "exact-integer?"
  | .isExact => "exact?"
  | .isStr => "string?"
  | .isChar => "char?"
  | .isIterable => "iterable?"
  | .isInt => "integer?"

/-- The arity-range half of `check_args` (`check_args` only inspects
`len(values)` for this part, and the special forms call it with AST operand
lists and `types=None`, so it is factored over the count). -/
def checkArity (o : String) (amount : ℕ) (arity : ℕ × Option ℕ) : Except Err Unit :=
  let lower := arity.1
  match arity.2 with
  | some upper =>
    if lower > upper then .error (.valueError "lower must be less than upper")
    else if lower = upper ∧ amount ≠ lower then
      .error (.myError (o ++ ": Arity mismatch. Expected " ++ toString lower ++
        ", got " ++ toString amount))
    else if amount > upper ∨ amount < lower then
      .error (.myError (o ++ ": Arity mismatch. Expected between " ++ toString lower ++
        " and " ++ toString upper ++ ", got " ++ toString amount))
    else .ok ()
  | Option.none =>
    if amount < lower then
      .error (.myError (o ++ ": Arity mismatch. Expected at least " ++ toString lower ++
        ", got " ++ toString amount))
    else .ok ()

/-- The "expects" message: `f"{o} expects: {' '.join([_t.__doc__ for _t in types])}"`. -/
def expectsMsg (o : String) (types : List Contract) : String :=
  o ++ " expects: " ++ String.intercalate " " (types.map Contract.doc)

/-- The contract-checking loop of `check_args`: argument `i` is checked
against `types[i]`, positions beyond the declared list reuse the last
contract (`types[-1]`; on an empty list Python would raise `IndexError`,
which never happens for the table's entries). -/
def checkContracts (o : String) (types : List Contract) :
    List Value → ℕ → Except Err Unit
  | [], _ => .ok ()
  | v :: rest, i =>
    match (if i ≥ types.length then types.getLast? else types.get? i) with
    | Option.none => .error (.indexError "list index out of range")
    | some c =>
      if c.check v then checkContracts o types rest (i + 1)
      else .error (.myError (expectsMsg o types))

/-- `check_args(o, values, arity, types)`. -/
def checkArgs (o : String) (values : List Value) (arity : ℕ × Option ℕ)
    (types : Option (List Contract)) : Except Err Unit :=
  match checkArity o values.length arity with
  | .error e => .error e
  | .ok _ =>
    match types with
    | Option.none => .ok ()
    | some ts => checkContracts o ts values 0

/-- `Value.float` tag test (Python `isinstance(val, float)`). -/
def Value.isFloatV : Value → Bool
  | .float _ => true
  | _ => false

/-- numpy broadcast `arr == scalar`: elementwise comparison of each bit with
the scalar (numpy semantics, external to src/; reached by `is_equal` only
when exactly one argument is an array, which no claim exercises). -/
def npBroadcastEq (xs : List Bool) (v : Value) : Value :=
  .boolarr (xs.map (fun b => pyEq (.bool b) v))

/-- `is_equal`: both arrays → `np.array_equal` (same length and same bit at
every index, i.e. list equality); a float and a non-float never compare
equal, in either order; otherwise Python `==`.  The return type is `Value`
because Python's `==` between an array and a scalar yields an array. -/
def is_equal (a b : Value) : Value :=
  match a, b with
  | .boolarr xs, .boolarr ys => .bool (xs = ys)
  | _, _ =>
    if a.isFloatV && !b.isFloatV then .bool false
    else if !a.isFloatV && b.isFloatV then .bool false
    else
      match a, b with
      | .boolarr xs, v => npBroadcastEq xs v
      | v, .boolarr xs => npBroadcastEq xs v
      | _, _ => .bool (pyEq a b)

/-- `equal_num(*values)`: `all(values[0] == val for val in values[1:])`
(the generator never touches `values[0]` when `values[1:]` is empty, so the
empty call returns `True` without an `IndexError`). -/
def equal_num (values : List Value) : Bool :=
  match values with
  | [] => true
  | v :: rest => rest.all (fun w => pyEq v w)

/-- The body of `div`'s `try:` block.  With no float/complex operand:
successive exact division via `reduce(lambda a, b: Fraction(a, b), vals)`
(raising `ZeroDivisionError` on a zero divisor), collapsing to an integer
when the reduced denominator is 1.  Otherwise ordinary Python `/`. -/
def divTry (vals : List Value) : Except Err Value :=
  if vals.all (fun v => numRank v ≤ 1) then
    match vals with
    | [] => .error (.typeError "reduce() of empty iterable with no initial value")
    | v :: rest =>
      match rest.foldlM (fun (acc : ℚ) (b : Value) =>
          if b.toRealQ = 0 then Except.error Err.zeroDivisionError
          else Except.ok (acc / b.toRealQ)) v.toRealQ with
      | .error e => .error e
      | .ok q => .ok (if q.den = 1 then .int q.num else .frac q)
  else
    match vals with
    | [] => .error (.typeError "reduce() of empty iterable with no initial value")
    | v :: rest => rest.foldlM (fun acc b => pyDiv acc b) v

/-- `div(*vals)`: a single operand becomes `(1, vals[0])` (reciprocal), and
any `ZeroDivisionError` from the body is re-raised as
`MyError("division by zero")`. -/
def div (vals : List Value) : Except Err Value :=
  let vals := if vals.length = 1 then Value.int 1 :: vals else vals
  match divTry vals with
  | .error .zeroDivisionError => .error (.myError "division by zero")
  | r => r

/-- Round-half-to-even on an exact rational: Python `round` on
`int`/`Fraction` (and, under the rational float model, on floats). -/
def roundHalfEven (q : ℚ) : ℤ :=
  let f := ⌊q⌋
  let r := q - (f : ℚ)
  if r < 1 / 2 then f
  else if 1 / 2 < r then f + 1
  else if f % 2 = 0 then f else f + 1

/-- `ceiling`: a float stays a float (`float(math.ceil(val))`), an exact real
becomes an exact integer. -/
def ceiling : Value → Value
  | .float q => .float ((⌈q⌉ : ℤ) : ℚ)
  | v => .int ⌈v.toRealQ⌉

/-- `floor`. -/
def floorFn : Value → Value
  | .float q => .float ((⌊q⌋ : ℤ) : ℚ)
  | v => .int ⌊v.toRealQ⌋

/-- `_round`: float in, float out; exact in, exact integer out. -/
def roundFn : Value → Value
  | .float q => .float ((roundHalfEven q : ℤ) : ℚ)
  | v => .int (roundHalfEven v.toRealQ)

/-- `string_append` / `string`: `reduce(lambda a, b: a + b, vals, "")` over
strings or chars (`CharType.__radd__` appends the payload). -/
def string_append (vals : List Value) : String :=
  vals.foldl (fun acc v => acc ++ pyStr v) ""

/-- Python `str.title()` (ASCII case mapping): uppercase the first letter of
every alphabetic run, lowercase the rest. -/
def pyTitleAux : List Char → Bool → List Char
  | [], _ => []
  | c :: rest, prevAlpha =>
    if c.isAlpha then
      (if prevAlpha then c.toLower else c.toUpper) :: pyTitleAux rest true
    else c :: pyTitleAux rest false

def pyTitle (s : String) : String := String.mk (pyTitleAux s.toList false)

/-- `string_ref(s, ref)`: Python indexing (negative indices count from the
end); out of range is caught and re-raised as a `MyError`. -/
def string_ref (s : String) (ref : ℤ) : Except Err Value :=
  let n : ℤ := s.length
  let i := if ref < 0 then ref + n else ref
  if 0 ≤ i ∧ i < n then .ok (.char (s.toList.getD i.toNat ' '))
  else .error (.myError ("string index " ++ toString ref ++ " is out of range"))

/-- `number_to_string`: complex gets `f"{real}{join}{imag}i"`, everything
else `f"{val}"`. -/
def number_to_string (v : Value) : String :=
  match v with
  | .complex re im =>
    pyNumStr (.float re) ++ (if im < 0 then "" else "+") ++ pyNumStr (.float im) ++ "i"
  | _ => pyNumStr v

/-- Proper-list length: `none` when the tail chain does not end in `Null`. -/
def properLen : Value → Option ℕ
  | .null => some 0
  | .cons _ d => (properLen d).map (· + 1)
  | _ => Option.none

/-- `length`: cons chains are counted (improper lists are a `MyError`),
arrays use `len`.  Other values fail the `is_iterable` contract first. -/
def lengthFn (v : Value) : Except Err Value :=
  match v with
  | .cons _ _ | .null =>
    match properLen v with
    | some n => .ok (.int n)
    | Option.none => .error (.myError "length expects: list?")
  | .boolarr xs => .ok (.int xs.length)
  | _ => .error (.typeError "object has no len()")

/-- `_list(*values)`: right fold of `ConsType` onto `Null`. -/
def listFn (values : List Value) : Value :=
  values.foldr (fun v acc => .cons v acc) .null

/-- The loop of `list_ref` after the negative-index guard: `ref` is
decremented, then the tail is taken and checked (`Null` → invalid index with
the already-decremented `ref` in the message; non-cons → not a list). -/
def listRefLoop : Value → ℕ → Except Err Value
  | .cons a _, 0 => .ok a
  | .cons _ d, n + 1 =>
    match d with
    | .null => .error (.myError (toString (n : ℤ) ++ ": Invalid index"))
    | .cons _ _ => listRefLoop d n
    | _ => .error (.myError "list-ref: 1st arg must be a list")
  | _, _ => .error (.typeError "list_ref on non-pair")

/-- `list_ref(result, ref)`; the first argument passed the `is_pair`
contract, so the non-pair arm of the loop is unreachable. -/
def list_ref (result : Value) (ref : ℤ) : Except Err Value :=
  if ref < 0 then .error (.myError (toString ref ++ ": Invalid index"))
  else listRefLoop result ref.toNat

/-- `listq`: follow the tail chain; a proper list ends in `Null`. -/
def listq : Value → Bool
  | .null => true
  | .cons _ d => listq d
  | _ => false

/-- `_not`: boolean complement, elementwise on arrays. -/
def notFn (v : Value) : Except Err Value :=
  match v with
  | .boolarr xs => .ok (.boolarr (xs.map (fun b => !b)))
  | .bool b => .ok (.bool (!b))
  | _ => .error (.myError "not expects: boolean? or boolarr?")

/-- Modelled from the spec: `boolop(a, b, op)` from
`auto_editor.utils.func`, which is not under src/.  §4.4: if the lengths
differ the shorter array is cyclically tiled (with truncation of the last
repetition) to the longer one's length, then the elementwise operator is
applied. -/
def boolop (a b : List Bool) (op : Bool → Bool → Bool) : List Bool :=
  let n := max a.length b.length
  let tile := fun (xs : List Bool) => (List.range n).map (fun i => xs.getD (i % xs.length) false)
  List.zipWith op (tile a) (tile b)

/-- Payload of an array value (callers just checked `is_boolarr`). -/
def arrOf : Value → List Bool
  | .boolarr xs => xs
  | _ => []

/-- Payload of a boolean value (callers just checked `is_bool`). -/
def boolOf : Value → Bool
  | .bool b => b
  | _ => false

/-- Integer payload (callers just checked `is_eint`). -/
def intOf : Value → ℤ
  | .int n => n
  | _ => 0

/-- `Value.boolarr` tag test (`is_boolarr`). -/
def Value.isBoolarrV : Value → Bool
  | .boolarr _ => true
  | _ => false

/-- `_and`: array path (arity re-checked as `(2, None)` with `is_boolarr`)
reduces `boolop` with logical and; scalar path (re-checked `(1, None)` with
`is_bool`) reduces Python `and`. -/
def andFn (vals : List Value) : Except Err Value :=
  match vals with
  | [] => .error (.indexError "list index out of range")
  | v0 :: _ =>
    if v0.isBoolarrV then
      match checkArgs "and" vals (2, Option.none) (some [.isBoolarr]) with
      | .error e => .error e
      | .ok _ =>
        .ok (.boolarr ((vals.drop 1).foldl (fun acc v => boolop acc (arrOf v) (fun a b => a && b)) (arrOf v0)))
    else
      match checkArgs "and" vals (1, Option.none) (some [.isBool]) with
      | .error e => .error e
      | .ok _ =>
        .ok (.bool ((vals.drop 1).foldl (fun acc v => acc && boolOf v) (boolOf v0)))

/-- `_or`. -/
def orFn (vals : List Value) : Except Err Value :=
  match vals with
  | [] => .error (.indexError "list index out of range")
  | v0 :: _ =>
    if v0.isBoolarrV then
      match checkArgs "or" vals (2, Option.none) (some [.isBoolarr]) with
      | .error e => .error e
      | .ok _ =>
        .ok (.boolarr ((vals.drop 1).foldl (fun acc v => boolop acc (arrOf v) (fun a b => a || b)) (arrOf v0)))
    else
      match checkArgs "or" vals (1, Option.none) (some [.isBool]) with
      | .error e => .error e
      | .ok _ =>
        .ok (.bool ((vals.drop 1).foldl (fun acc v => acc || boolOf v) (boolOf v0)))

/-- `_xor`. -/
def xorFn (vals : List Value) : Except Err Value :=
  match vals with
  | [] => .error (.indexError "list index out of range")
  | v0 :: _ =>
    if v0.isBoolarrV then
      match checkArgs "xor" vals (2, Option.none) (some [.isBoolarr]) with
      | .error e => .error e
      | .ok _ =>
        .ok (.boolarr ((vals.drop 1).foldl (fun acc v => boolop acc (arrOf v) (fun a b => xor a b)) (arrOf v0)))
    else
      match checkArgs "xor" vals (2, Option.none) (some [.isBool]) with
      | .error e => .error e
      | .ok _ =>
        .ok (.bool ((vals.drop 1).foldl (fun acc v => xor acc (boolOf v)) (boolOf v0)))

/-- Maximal-run decomposition helper. -/
def runsAux : List Bool → Bool → ℕ → List (Bool × ℕ)
  | [], cur, k => [(cur, k)]
  | x :: rest, cur, k =>
    if x = cur then runsAux rest cur (k + 1) else (cur, k) :: runsAux rest x 1

/-- Maximal contiguous runs of a boolean list, as (value, length) pairs. -/
def runs : List Bool → List (Bool × ℕ)
  | [] => []
  | x :: rest => runsAux rest x 1

/-- Modelled from the spec: `remove_small(arr, min, replace, with_)` from
`auto_editor.utils.func`, which is not under src/.  §4.4: every maximal
contiguous run of the target value whose length is strictly below the
minimum is overwritten with the opposite value. -/
def removeSmall (xs : List Bool) (minLen : ℤ) (target : Bool) : List Bool :=
  (runs xs).flatMap (fun r =>
    if r.1 = target ∧ (r.2 : ℤ) < minLen then List.replicate r.2 (!r.1)
    else List.replicate r.2 r.1)

/-- Modelled from the spec: `apply_margin(arr, len, start, end)` from
`auto_editor.utils.func`, which is not under src/.  §4.4: each maximal run
of `true` grows by `start` frames before its first index and `end` frames
after its last, clipped to bounds, with overlapping extensions merging.
Pointwise (for nonnegative margins): bit `i` is set iff some set bit `j` has
`j - start ≤ i ≤ j + end`. -/
def apply_margin (arr : List Bool) (n : ℕ) (start stop : ℤ) : List Bool :=
  (List.range n).map (fun i =>
    (List.range n).any (fun j =>
      arr.getD j false && decide ((j : ℤ) - start ≤ (i : ℤ)) && decide ((i : ℤ) ≤ (j : ℤ) + stop)))

/-- `margin(a, b, c=None)`: the 2-argument form re-checks
`[is_eint, is_boolarr]` and uses the margin on both sides, the 3-argument
form re-checks `[is_eint, is_eint, is_boolarr]`. -/
def marginFn (vals : List Value) : Except Err Value :=
  match vals with
  | [a, b] =>
    match checkArgs "margin" [a, b] (2, some 2) (some [.isEint, .isBoolarr]) with
    | .error e => .error e
    | .ok _ =>
      let arr := arrOf b
      .ok (.boolarr (apply_margin arr arr.length (intOf a) (intOf a)))
  | [a, b, c] =>
    match checkArgs "margin" [a, b, c] (3, some 3) (some [.isEint, .isEint, .isBoolarr]) with
    | .error e => .error e
    | .ok _ =>
      let arr := arrOf c
      .ok (.boolarr (apply_margin arr arr.length (intOf a) (intOf b)))
  | _ => .error (.typeError "margin() takes 2 or 3 arguments")

/-- Modelled from the spec: `minclip` removes maximal runs of `true` shorter
than the minimum (`remove_small(arr, min, replace=1, with_=0)`;
`remove_small` lives in `auto_editor.utils.func`, which is not under src/).
Note on the wiring: the table entry's contracts are `[is_eint, is_boolarr]`,
so `minclip(values[0], values[1])` binds the integer to `minclip`'s `arr`
parameter and the array to `_min`; the resulting behavior depends on the
absent `remove_small`, so we model §4.4's stated semantics with the integer
as the threshold. -/
def minclipFn (m : ℤ) (xs : List Bool) : List Bool := removeSmall xs m true

/-- Modelled from the spec: `mincut` removes maximal runs of `false` shorter
than the minimum (`remove_small(arr, min, replace=0, with_=1)`); same wiring
caveat as `minclipFn`. -/
def mincutFn (m : ℤ) (xs : List Bool) : List Bool := removeSmall xs m false

/-- Modelled from the spec: `cook` applies minclip then mincut in that fixed
order (`cook` lives in `auto_editor.utils.func`, not under src/).  The table
lambda is `(a, b, c) ↦ cook(np.copy(c), b, a)`. -/
def cookFn (xs : List Bool) (minclipLen mincutLen : ℤ) : List Bool :=
  mincutFn mincutLen (minclipFn minclipLen xs)

/-- String payload (callers just checked `is_str`). -/
def strOf : Value → String
  | .str s => s
  | _ => ""

/-- Python `a % b` (floor-style, sign of the divisor) on the int-ish reals
admitted by the `is_int` contract (bools included, Python `bool` arithmetic
yields `int`).  A zero divisor raises `ZeroDivisionError`, which `mod` does
not catch. -/
def pyMod (a b : Value) : Except Err Value :=
  if b.toRealQ = 0 then .error .zeroDivisionError
  else
    let q := a.toRealQ - b.toRealQ * (⌊a.toRealQ / b.toRealQ⌋ : ℤ)
    .ok (mkNum (max (numRank a) (numRank b)) q 0)

/-- `display(val)`: `None` prints nothing, arrays print via `print_arr`,
everything else via `str`; always returns `None`. -/
def displayFn (v : Value) (st : InterpState) : Res Value :=
  match v with
  | .none => .ok .none st
  | .boolarr xs => .ok .none { st with output := st.output ++ print_arr xs }
  | _ => .ok .none { st with output := st.output ++ pyStr v }

/-- Lift a pure `Except` computation into `Res` at the current state. -/
def liftE (r : Except Err Value) (st : InterpState) : Res Value :=
  match r with
  | .ok v => .ok v st
  | .error e => .err e st

/-- Dispatch to each builtin's underlying computation (the Python callables
of the `GLOBAL_SCOPE` table).  The evaluator calls this only after
`check_args` succeeded; the final catch-all models the `TypeError` Python
would raise for an argument shape the callable cannot take (unreachable from
the evaluator for the table's arities).  `expt` and `sqrt` compute with host
floating-point/complex math (`pow`, `cmath.sqrt`) and are left unmodelled —
no claim mentions them. -/
def runProc : ProcImpl → List Value → InterpState → Res Value
  | .beginImpl, vals, st => .ok (vals.getLast?.getD .none) st
  | .displayImpl, [v], st => displayFn v st
  | .exitImpl, [v], st => .err (.sysExit v) st
  | .exitImpl, _ :: _ :: _, st => .err (.typeError "exit takes at most 1 argument") st
  | .errorImpl, [v], st => .err (.myError (strOf v)) st
  | .gt, [a, b], st => .ok (.bool (decide (b.toRealQ < a.toRealQ))) st
  | .ge, [a, b], st => .ok (.bool (decide (b.toRealQ ≤ a.toRealQ))) st
  | .lt, [a, b], st => .ok (.bool (decide (a.toRealQ < b.toRealQ))) st
  | .le, [a, b], st => .ok (.bool (decide (a.toRealQ ≤ b.toRealQ))) st
  | .numEq, vals, st => .ok (.bool (equal_num vals)) st
  | .notImpl, [v], st => liftE (notFn v) st
  | .andImpl, vals, st => liftE (andFn vals) st
  | .orImpl, vals, st => liftE (orFn vals) st
  | .xorImpl, vals, st => liftE (xorFn vals) st
  | .equalQ, [a, b], st => .ok (is_equal a b) st
  | .listQ, [v], st => .ok (.bool (listq v)) st
  | .pairQ, [v], st => .ok (.bool (Contract.check .isPair v)) st
  | .nullQ, [v], st => .ok (.bool (match v with | .null => true | _ => false)) st
  | .numberQ, [v], st => .ok (.bool (Contract.check .isNum v)) st
  | .exactQ, [v], st => .ok (.bool (Contract.check .isExact v)) st
  | .inexactQ, [v], st => .ok (.bool (!Contract.check .isExact v)) st
  | .realQ, [v], st => .ok (.bool (Contract.check .isReal v)) st
  | .integerQ, [v], st => .ok (.bool (Contract.check .isInt v)) st
  | .exactIntegerQ, [v], st => .ok (.bool (Contract.check .isEint v)) st
  | .positiveQ, [v], st => .ok (.bool (decide (0 < v.toRealQ))) st
  | .negativeQ, [v], st => .ok (.bool (decide (v.toRealQ < 0))) st
  | .zeroQ, [v], st => .ok (.bool (decide (v.toRealQ = 0))) st
  | .booleanQ, [v], st => .ok (.bool (Contract.check .isBool v)) st
  | .stringQ, [v], st => .ok (.bool (Contract.check .isStr v)) st
  | .charQ, [v], st => .ok (.bool (Contract.check .isChar v)) st
  | .consImpl, [a, b], st => .ok (.cons a b) st
  | .car, [v], st =>
    match v with
    | .cons a _ => .ok a st
    | _ => .err (.typeError "car on non-pair") st
  | .cdr, [v], st =>
    match v with
    | .cons _ d => .ok d st
    | _ => .err (.typeError "cdr on non-pair") st
  | .listImpl, vals, st => .ok (listFn vals) st
  | .listRef, [p, r], st => liftE (list_ref p (intOf r)) st
  | .lengthImpl, [v], st => liftE (lengthFn v) st
  | .stringImpl, vals, st => .ok (.str (string_append vals)) st
  | .stringAppend, vals, st => .ok (.str (string_append vals)) st
  | .stringUpcase, [v], st => .ok (.str (strOf v).toUpper) st
  | .stringDowncase, [v], st => .ok (.str (strOf v).toLower) st
  | .stringTitlecase, [v], st => .ok (.str (pyTitle (strOf v))) st
  | .stringLength, [v], st => .ok (.int (strOf v).length) st
  | .stringRef, [s, r], st => liftE (string_ref (strOf s) (intOf r)) st
  | .numberToString, [v], st => .ok (.str (number_to_string v)) st
  | .add, vals, st => .ok (vals.foldl pyAdd (.int 0)) st
  | .sub, [v], st => .ok (pyNeg v) st
  | .sub, v :: rest, st => .ok (rest.foldl pySub v) st
  | .mulImpl, vals, st => .ok (vals.foldl pyMul (.int 1)) st
  | .divImpl, vals, st => liftE (div vals) st
  | .add1, [v], st => .ok (pyAdd v (.int 1)) st
  | .sub1, [v], st => .ok (pySub v (.int 1)) st
  | .expt, _, st => .err (.notModelled "expt: host pow") st
  | .sqrtImpl, _, st => .err (.notModelled "sqrt: cmath.sqrt") st
  | .modImpl, [a, b], st => liftE (pyMod a b) st
  | .realPart, [v], st =>
    match v with
    | .complex re _ => .ok (.float re) st
    | .int n => .ok (.int n) st
    | .frac q => .ok (.frac q) st
    | .float q => .ok (.float q) st
    | _ => .err (.typeError "real on non-number") st
  | .imagPart, [v], st =>
    match v with
    | .complex _ im => .ok (.float im) st
    | .int _ => .ok (.int 0) st
    | .frac _ => .ok (.int 0) st
    | .float _ => .ok (.float 0) st
    | _ => .err (.typeError "imag on non-number") st
  | .absImpl, [v], st =>
    match v with
    | .int n => .ok (.int |n|) st
    | .frac q => .ok (.frac |q|) st
    | .float q => .ok (.float |q|) st
    | _ => .err (.typeError "abs on non-real") st
  | .ceilImpl, [v], st => .ok (ceiling v) st
  | .exactCeil, [v], st => .ok (.int ⌈v.toRealQ⌉) st
  | .floorImpl, [v], st => .ok (floorFn v) st
  | .exactFloor, [v], st => .ok (.int ⌊v.toRealQ⌋) st
  | .roundImpl, [v], st => .ok (roundFn v) st
  | .exactRound, [v], st => .ok (.int (roundHalfEven v.toRealQ)) st
  | .maxImpl, v :: rest, st =>
    .ok (rest.foldl (fun acc w => if acc.toRealQ < w.toRealQ then w else acc) v) st
  | .minImpl, v :: rest, st =>
    .ok (rest.foldl (fun acc w => if w.toRealQ < acc.toRealQ then w else acc) v) st
  | .marginImpl, vals, st => liftE (marginFn vals) st
  | .mincutImpl, [m, arr], st => .ok (.boolarr (mincutFn (intOf m) (arrOf arr))) st
  | .minclipImpl, [m, arr], st => .ok (.boolarr (minclipFn (intOf m) (arrOf arr))) st
  | .cookImpl, [a, b, c], st => .ok (.boolarr (cookFn (arrOf c) (intOf b) (intOf a))) st
  | .boolarrImpl, vals, st => .ok (.boolarr (vals.map (fun v => intOf v != 0))) st
  | .countNonzero, [v], st => .ok (.int ((arrOf v).count true)) st
  | .boolarrQ, [v], st => .ok (.bool (Contract.check .isBoolarr v)) st
  | _, _, st => .err (.typeError "bad argument shape") st

/-- `math.pi` as stored in the table: the IEEE double closest to π,
exactly `884279719003555 / 2^48`. -/
def piFloat : ℚ := (884279719003555 : ℚ) / 281474976710656

set_option maxHeartbeats 1600000

/-- `Interpreter.GLOBAL_SCOPE`: the pre-seeded constants and builtin
procedure table (a class attribute, i.e. one shared dict per process). -/
def GLOBAL_SCOPE : List (String × Value) := [
  ("true", .bool true),
  ("false", .bool false),
  ("null", .null),
  ("pi", .float piFloat),
  ("begin", .proc ⟨"begin", .beginImpl, (0, Option.none), Option.none⟩),
  ("display", .proc ⟨"display", .displayImpl, (1, some 1), Option.none⟩),
  ("exit", .proc ⟨"exit", .exitImpl, (1, Option.none), Option.none⟩),
  ("error", .proc ⟨"error", .errorImpl, (1, some 1), some [.isStr]⟩),
  (">", .proc ⟨">", .gt, (2, some 2), some [.isReal, .isReal]⟩),
  (">=", .proc ⟨">=", .ge, (2, some 2), some [.isReal, .isReal]⟩),
  ("<", .proc ⟨"<", .lt, (2, some 2), some [.isReal, .isReal]⟩),
  ("<=", .proc ⟨"<=", .le, (2, some 2), some [.isReal, .isReal]⟩),
  ("=", .proc ⟨"=", .numEq, (1, Option.none), some [.isNum]⟩),
  ("not", .proc ⟨"not", .notImpl, (1, some 1), Option.none⟩),
  ("and", .proc ⟨"and", .andImpl, (1, Option.none), Option.none⟩),
  ("or", .proc ⟨"or", .orImpl, (1, Option.none), Option.none⟩),
  ("xor", .proc ⟨"xor", .xorImpl, (2, Option.none), Option.none⟩),
  ("equal?", .proc ⟨"equal?", .equalQ, (2, some 2), Option.none⟩),
  ("list?", .proc ⟨"list?", .listQ, (1, some 1), Option.none⟩),
  ("pair?", .proc ⟨"pair?", .pairQ, (1, some 1), Option.none⟩),
  ("null?", .proc ⟨"null?", .nullQ, (1, some 1), Option.none⟩),
  ("number?", .proc ⟨"number?", .numberQ, (1, some 1), Option.none⟩),
  ("exact?", .proc ⟨"exact?", .exactQ, (1, some 1), Option.none⟩),
  ("inexact?", .proc ⟨"inexact?", .inexactQ, (1, some 1), Option.none⟩),
  ("real?", .proc ⟨"real?", .realQ, (1, some 1), Option.none⟩),
  ("integer?", .proc ⟨"integer?", .integerQ, (1, some 1), Option.none⟩),
  ("exact-integer?", .proc ⟨"exact-integer?", .exactIntegerQ, (1, some 1), Option.none⟩),
  ("positive?", .proc ⟨"positive?", .positiveQ, (1, some 1), some [.isReal]⟩),
  ("negative?", .proc ⟨"negative?", .negativeQ, (1, some 1), some [.isReal]⟩),
  ("zero?", .proc ⟨"zero?", .zeroQ, (1, some 1), some [.isReal]⟩),
  ("boolean?", .proc ⟨"boolean?", .booleanQ, (1, some 1), Option.none⟩),
  ("string?", .proc ⟨"string?", .stringQ, (1, some 1), Option.none⟩),
  ("char?", .proc ⟨"char?", .charQ, (1, some 1), Option.none⟩),
  ("cons", .proc ⟨"cons", .consImpl, (2, some 2), Option.none⟩),
  ("car", .proc ⟨"car", .car, (1, some 1), some [.isPair]⟩),
  ("cdr", .proc ⟨"cdr", .cdr, (1, some 1), some [.isPair]⟩),
  ("list", .proc ⟨"list", .listImpl, (0, Option.none), Option.none⟩),
  ("list-ref", .proc ⟨"list-ref", .listRef, (2, some 2), some [.isPair, .isEint]⟩),
  ("length", .proc ⟨"length", .lengthImpl, (1, some 1), some [.isIterable]⟩),
  ("string", .proc ⟨"string", .stringImpl, (0, Option.none), some [.isChar]⟩),
  ("string-append", .proc ⟨"string-append", .stringAppend, (0, Option.none), some [.isStr]⟩),
  ("string-upcase", .proc ⟨"string-upcase", .stringUpcase, (1, some 1), some [.isStr]⟩),
  ("string-downcase", .proc ⟨"string-downcase", .stringDowncase, (1, some 1), some [.isStr]⟩),
  ("string-titlecase", .proc ⟨"string-titlecase", .stringTitlecase, (1, some 1), some [.isStr]⟩),
  ("string-length", .proc ⟨"string-length", .stringLength, (1, some 1), some [.isStr]⟩),
  ("string-ref", .proc ⟨"string-ref", .stringRef, (2, some 2), some [.isStr, .isEint]⟩),
  ("number->string", .proc ⟨"number->string", .numberToString, (1, some 1), some [.isNum]⟩),
  ("+", .proc ⟨"+", .add, (0, Option.none), some [.isNum]⟩),
  ("-", .proc ⟨"-", .sub, (1, Option.none), some [.isNum]⟩),
  ("*", .proc ⟨"*", .mulImpl, (0, Option.none), some [.isNum]⟩),
  ("/", .proc ⟨"/", .divImpl, (1, Option.none), some [.isNum]⟩),
  ("add1", .proc ⟨"add1", .add1, (1, some 1), some [.isNum]⟩),
  ("sub1", .proc ⟨"sub1", .sub1, (1, some 1), some [.isNum]⟩),
  ("expt", .proc ⟨"expt", .expt, (2, some 2), some [.isReal]⟩),
  ("sqrt", .proc ⟨"sqrt", .sqrtImpl, (1, some 1), some [.isNum]⟩),
  ("mod", .proc ⟨"mod", .modImpl, (2, some 2), some [.isInt, .isInt]⟩),
  ("modulo", .proc ⟨"modulo", .modImpl, (2, some 2), some [.isInt, .isInt]⟩),
  ("real-part", .proc ⟨"real-part", .realPart, (1, some 1), some [.isNum]⟩),
  ("imag-part", .proc ⟨"imag-part", .imagPart, (1, some 1), some [.isNum]⟩),
  ("abs", .proc ⟨"abs", .absImpl, (1, some 1), some [.isReal]⟩),
  ("ceil", .proc ⟨"ceil", .ceilImpl, (1, some 1), some [.isReal]⟩),
  ("ceiling", .proc ⟨"ceiling", .ceilImpl, (1, some 1), some [.isReal]⟩),
  ("exact-ceil", .proc ⟨"exact-ceil", .exactCeil, (1, some 1), some [.isReal]⟩),
  ("exact-ceiling", .proc ⟨"exact-ceiling", .exactCeil, (1, some 1), some [.isReal]⟩),
  ("floor", .proc ⟨"floor", .floorImpl, (1, some 1), some [.isReal]⟩),
  ("exact-floor", .proc ⟨"exact-floor", .exactFloor, (1, some 1), some [.isReal]⟩),
  ("round", .proc ⟨"round", .roundImpl, (1, some 1), some [.isReal]⟩),
  ("exact-round", .proc ⟨"exact-round", .exactRound, (1, some 1), some [.isReal]⟩),
  ("max", .proc ⟨"max", .maxImpl, (1, Option.none), some [.isReal]⟩),
  ("min", .proc ⟨"min", .minImpl, (1, Option.none), some [.isReal]⟩),
  ("margin", .proc ⟨"margin", .marginImpl, (2, some 3), Option.none⟩),
  ("mcut", .proc ⟨"mincut", .mincutImpl, (2, some 2), some [.isEint, .isBoolarr]⟩),
  ("mincut", .proc ⟨"mincut", .mincutImpl, (2, some 2), some [.isEint, .isBoolarr]⟩),
  ("mclip", .proc ⟨"minclip", .minclipImpl, (2, some 2), some [.isEint, .isBoolarr]⟩),
  ("minclip", .proc ⟨"minclip", .minclipImpl, (2, some 2), some [.isEint, .isBoolarr]⟩),
  ("cook", .proc ⟨"cook", .cookImpl, (3, some 3), some [.isEint, .isEint, .isBoolarr]⟩),
  ("boolarr", .proc ⟨"boolarr", .boolarrImpl, (1, Option.none), some [.isEint]⟩),
  ("count-nonzero", .proc ⟨"count-nonzero", .countNonzero, (1, some 1), some [.isBoolarr]⟩),
  ("boolarr?", .proc ⟨"boolarr?", .boolarrQ, (1, some 1), Option.none⟩)]

/-- `FileSetup`: only the timebase matters to the language semantics; the
other fields (`src`, `ensure`, `strict`, `bar`, `temp`, `log`) are handles
on external collaborators and are not modelled. -/
structure FileSetup where
  tb : ℚ
deriving DecidableEq, Repr

/-- `Interpreter.__init__(parser, filesetup)`: `GLOBAL_SCOPE` is a class
attribute, so construction does not copy or reset the (shared) dict — it
only writes the `timebase` binding into it when a file setup is supplied. -/
def interpreterInit (scope : List (String × Value)) (fs : Option FileSetup) :
    List (String × Value) :=
  match fs with
  | some f => dictInsert scope "timebase" (.frac f.tb)
  | Option.none => scope

/-- AST nodes at expression level (`ManyOp`, `Var`, `Num`, `Str`, `Bool`,
`Char`, `BoolArr`).  `Compound` only ever wraps the top-level expression
list (`Parser.comp` is its sole producer), so a program is a `List Node`. -/
inductive Node where
  | num (v : PyNum)
  | strLit (s : String)
  | boolLit (b : Bool)
  | charLit (c : Char)
  | boolArr (descr : String)
  | var (name : String)
  | manyOp (op : Node) (children : List Node)

mutual

/-- AST `__str__`, as interpolated into the "Variable must be set with a
symbol" message. -/
def nodeStr : Node → String
  | .num v => "(num " ++ pyNumStr v.toValue ++ ")"
  | .strLit s => "(str " ++ s ++ ")"
  | .boolLit b => "(bool " ++ (if b then "#t" else "#f") ++ ")"
  | .charLit c => "(char " ++ String.singleton c ++ ")"
  | .boolArr s => "(boolarr " ++ s ++ ")"
  | .var name => "(Var " ++ name ++ ")"
  | .manyOp op children => "(ManyOp " ++ nodeStr op ++ nodeListStr children ++ ")"

def nodeListStr : List Node → String
  | [] => ""
  | n :: ns => " " ++ nodeStr n ++ nodeListStr ns

end

/-- The edit-method bridge (`auto_editor.analyze.edit_method`): an external
collaborator producing a boolean array from a descriptor string; the
evaluator is parametric in it. -/
def Bridge : Type := String → FileSetup → Except Err (List Bool)

mutual

/-- `Interpreter.visit`, fueled.  Dispatch order follows the source: literal
leaves; `Var` lookup (a `None` value — absent key OR a binding whose stored
value is `None` — is "is undefined"); `BoolArr` via the bridge; `ManyOp`
special forms `if` / `when` / `define` / `set!` when the head is a `Var`
with that name, otherwise evaluate the head, require a procedure, evaluate
all operands left to right, `check_args`, then run the procedure.  The
`valueError "unreachable"` arms are dead: `check_args` succeeded just
before, forcing the operand count. -/
def visit (br : Bridge) (fs : Option FileSetup) : ℕ → Node → InterpState → Res Value
  | 0, _, st => .err .outOfFuel st
  | _ + 1, .num v, st => .ok v.toValue st
  | _ + 1, .strLit s, st => .ok (.str s) st
  | _ + 1, .boolLit b, st => .ok (.bool b) st
  | _ + 1, .charLit c, st => .ok (.char c) st
  | _ + 1, .var name, st =>
    match dictGet st.scope name with
    | Option.none => .err (.myError (name ++ " is undefined")) st
    | some .none => .err (.myError (name ++ " is undefined")) st
    | some v => .ok v st
  | _ + 1, .boolArr descr, st =>
    match fs with
    | Option.none => .err (.myError "Can't use edit methods if there's no input files") st
    | some f =>
      match br descr f with
      | .ok xs => .ok (.boolarr xs) st
      | .error e => .err e st
  | fuel + 1, .manyOp op children, st =>
    match (match op with | .var v => some v | _ => (Option.none : Option String)) with
    | some "if" =>
      match checkArity "if" children.length (3, some 3) with
      | .error e => .err e st
      | .ok _ =>
        match children with
        | [c0, c1, c2] =>
          match visit br fs fuel c0 st with
          | .err e st1 => .err e st1
          | .ok v st1 =>
            match v with
            | .bool true => visit br fs fuel c1 st1
            | .bool false => visit br fs fuel c2 st1
            | _ => .err (.myError "if: test-expr arg must be: boolean?") st1
        | _ => .err (.valueError "unreachable") st
    | some "when" =>
      match checkArity "when" children.length (2, some 2) with
      | .error e => .err e st
      | .ok _ =>
        match children with
        | [c0, c1] =>
          match visit br fs fuel c0 st with
          | .err e st1 => .err e st1
          | .ok v st1 =>
            match v with
            | .bool true => visit br fs fuel c1 st1
            | .bool false => .ok .none st1
            | _ => .err (.myError "when: test-expr arg must be: boolean?") st1
        | _ => .err (.valueError "unreachable") st
    | some "define" =>
      match checkArity "define" children.length (2, some 2) with
      | .error e => .err e st
      | .ok _ =>
        match children with
        | [c0, c1] =>
          match c0 with
          | .var varName =>
            match visit br fs fuel c1 st with
            | .err e st1 => .err e st1
            | .ok v st1 => .ok .none { st1 with scope := dictInsert st1.scope varName v }
          | _ => .err (.myError ("Variable must be set with a symbol, got " ++ nodeStr c0)) st
        | _ => .err (.valueError "unreachable") st
    | some "set!" =>
      match checkArity "set!" children.length (2, some 2) with
      | .error e => .err e st
      | .ok _ =>
        match children with
        | [c0, c1] =>
          match c0 with
          | .var varName =>
            if dictHas st.scope varName then
              match visit br fs fuel c1 st with
              | .err e st1 => .err e st1
              | .ok v st1 => .ok .none { st1 with scope := dictInsert st1.scope varName v }
            else .err (.myError ("Cannot set variable " ++ varName ++ " before definition")) st
          | _ => .err (.myError ("Variable must be set with a symbol, got " ++ nodeStr c0)) st
        | _ => .err (.valueError "unreachable") st
    | _ =>
      match visit br fs fuel op st with
      | .err e st1 => .err e st1
      | .ok operv st1 =>
        match operv with
        | .proc p =>
          match visitList br fs fuel children st1 with
          | .err e st2 => .err e st2
          | .ok values st2 =>
            match checkArgs p.name values p.arity p.contracts with
            | .error e => .err e st2
            | .ok _ => runProc p.impl values st2
        | _ => .err (.myError (pyStr operv ++ ", expected procedure")) st1

/-- Left-to-right evaluation of an operand list (also the `Compound` loop:
a program's result is the ordered list of its top-level results). -/
def visitList (br : Bridge) (fs : Option FileSetup) :
    ℕ → List Node → InterpState → Res (List Value)
  | 0, _, st => .err .outOfFuel st
  | _ + 1, [], st => .ok [] st
  | fuel + 1, n :: ns, st =>
    match visit br fs fuel n st with
    | .err e st1 => .err e st1
    | .ok v st1 =>
      match visitList br fs fuel ns st1 with
      | .err e st2 => .err e st2
      | .ok vs st2 => .ok (v :: vs) st2

end

/-- `Interpreter.interpret`: visit the `Compound` of top-level expressions. -/
def interpret (br : Bridge) (fs : Option FileSetup) (fuel : ℕ)
    (prog : List Node) (st : InterpState) : Res (List Value) :=
  visitList br fs fuel prog st

/-! ## Lexer

The Python lexer walks `(text, pos, char)` with one character of peek; all
its routines only move forward, so they are modelled as functions consuming
the remaining character list. -/

/-- Tokens (`Token(type, value)` pairs; the bracket tokens carry their own
character as both type and value). -/
inductive Token where
  | id (s : String)
  | numTok (v : PyNum)
  | boolTok (b : Bool)
  | strTok (s : String)
  | arr (s : String)
  | secTok (v : PyNum)
  | charTok (c : Char)
  | lparen
  | rparen
  | lbrac
  | rbrac
  | lcur
  | rcur
  | eof
deriving DecidableEq, Repr

/-- The whitespace set of `skip_whitespace` / `char_is_norm`:
space, tab, newline, carriage return, vertical tab, form feed. -/
def spaceChars : List Char := [' ', '\t', '\n', '\r', Char.ofNat 11, Char.ofNat 12]

/-- The bracket characters. -/
def bracketChars : List Char := ['(', ')', '[', ']', Char.ofNat 123, Char.ofNat 125]

/-- `char_is_norm`: anything except whitespace, brackets, `"` and `;`. -/
def charIsNorm (c : Char) : Bool :=
  !((bracketChars ++ ['"', ';'] ++ spaceChars).contains c)

/-- `METHODS`. -/
def METHODS : List String := ["audio", "motion", "pixeldiff", "random", "none", "all"]

/-- `SEC_UNITS`. -/
def SEC_UNITS : List String := ["s", "sec", "secs", "second", "seconds"]

/-- `Lexer.string`, entered after the opening `"` was consumed: accumulate
until a closing `"` or end of input; `\\` accepts exactly the four escapes
`n t " \\` and any other escaped character is a `MyError`.  When the input
runs out without a closing quote the loop simply exits and the accumulated
text is returned — an unterminated string is NOT an error in this code.  A
backslash as the last character is special: after `advance()` sets the
current char to `None`, the next statement executed is
`if self.char in 'nt"\\':`, and `None in <str>` raises an uncaught
`TypeError` — so the `MyError("Unexpected EOF while parsing")` line below
that test is dead code (whenever the membership test completes, the char
was a real character, so its `self.char is None` guard can never hold). -/
def lexString : List Char → Except Err (String × List Char)
  | [] => .ok ("", [])
  | '"' :: rest => .ok ("", rest)
  | '\\' :: rest =>
    match rest with
    | [] => .error (.typeError
        "'in <string>' requires string as left operand, not NoneType")
    | c :: rest2 =>
      if c = 'n' then
        match lexString rest2 with
        | .ok (s, r) => .ok ("\n" ++ s, r)
        | .error e => .error e
      else if c = 't' then
        match lexString rest2 with
        | .ok (s, r) => .ok ("\t" ++ s, r)
        | .error e => .error e
      else if c = '"' then
        match lexString rest2 with
        | .ok (s, r) => .ok ("\"" ++ s, r)
        | .error e => .error e
      else if c = '\\' then
        match lexString rest2 with
        | .ok (s, r) => .ok ("\\" ++ s, r)
        | .error e => .error e
      else
        .error (.myError ("Unexpected character " ++ String.singleton c ++
          " during escape sequence"))
  | c :: rest =>
    match lexString rest with
    | .ok (s, r) => .ok (String.singleton c ++ s, r)
    | .error e => .error e

/-- Value of a nonempty all-digit run. -/
def digitsVal (cs : List Char) : Option ℕ :=
  if cs ≠ [] ∧ cs.all Char.isDigit then
    some (cs.foldl (fun a c => a * 10 + (c.toNat - 48)) 0)
  else Option.none

/-- Python `int(s)` on the lexer's digit-run charset: optional sign then
digits. -/
def intParse (cs : List Char) : Option ℤ :=
  match cs with
  | '+' :: rest => (digitsVal rest).map (fun n => (n : ℤ))
  | '-' :: rest => (digitsVal rest).map (fun n => -(n : ℤ))
  | _ => (digitsVal cs).map (fun n => (n : ℤ))

/-- Python `float(s)` on the lexer's charset (no exponents can occur):
optional sign, then digits with at most one `.` and at least one digit. -/
def floatParse (cs : List Char) : Option ℚ :=
  let (sign, body) : ℚ × List Char :=
    match cs with
    | '+' :: rest => (1, rest)
    | '-' :: rest => (-1, rest)
    | _ => (1, cs)
  match body.splitOn '.' with
  | [a] => (digitsVal a).map (fun n => sign * n)
  | [a, b] =>
    if (a ++ b) ≠ [] ∧ (a ++ b).all Char.isDigit then
      some (sign * ((a.foldl (fun acc c => acc * 10 + (c.toNat - 48)) 0 : ℕ) +
        (b.foldl (fun acc c => acc * 10 + (c.toNat - 48)) 0 : ℕ) / ((10 : ℚ) ^ b.length)))
    else Option.none
  | _ => Option.none

/-- Python `Fraction(s)` for a string containing `/`: optional sign, then
`digits+ / digits+`; a zero denominator raises `ZeroDivisionError` (which
`Lexer.number` does NOT catch — it only catches `ValueError`). -/
def fracParse (cs : List Char) : Except Err ℚ :=
  let (sign, body) : ℚ × List Char :=
    match cs with
    | '+' :: rest => (1, rest)
    | '-' :: rest => (-1, rest)
    | _ => (1, cs)
  match body.splitOn '/' with
  | [a, b] =>
    match digitsVal a, digitsVal b with
    | some n, some d =>
      if d = 0 then .error .zeroDivisionError
      else .ok (sign * n / d)
    | _, _ => .error (.valueError "Invalid literal for Fraction")
  | _ => .error (.valueError "Invalid literal for Fraction")

/-- The `±B` piece of a complex literal: empty or a bare sign means 1 of that
sign, otherwise a float literal. -/
def signedImag (cs : List Char) : Option ℚ :=
  match cs with
  | [] => some 1
  | ['+'] => some 1
  | ['-'] => some (-1)
  | _ => floatParse cs

/-- Python `complex(result ++ "j")` on the lexer's charset: an internal sign
(at index ≥ 1) splits real and imaginary parts, otherwise the whole run is
the imaginary part. -/
def complexParse (cs : List Char) : Option (ℚ × ℚ) :=
  let signIdxs := (List.range cs.length).filter
    (fun i => 1 ≤ i ∧ (cs.getD i ' ' = '+' ∨ cs.getD i ' ' = '-'))
  match signIdxs.getLast? with
  | some i =>
    match floatParse (cs.take i), signedImag (cs.drop i) with
    | some re, some im => some (re, im)
    | _, _ => Option.none
  | Option.none => (signedImag cs).map (fun im => ((0 : ℚ), im))

/-- `Lexer.number`: grab a maximal run of `[+-0-9./]`, then a maximal
"normal" run as a unit.  A seconds unit makes a SEC token, unit `i` attempts
a complex literal, any other nonempty unit reinterprets the whole thing as
an identifier; then the run parses as Fraction (if it has `/`; collapsed to
an int when the denominator is 1), float (if it has `.`) or int, falling
back to an identifier on `ValueError` (but a `ZeroDivisionError` from
`Fraction`, e.g. `5/0`, escapes uncaught). -/
def lexNumber (cs : List Char) : Except Err (Token × List Char) :=
  let result := cs.takeWhile (fun c => c.isDigit || ['+', '-', '.', '/'].contains c)
  let cs1 := cs.drop result.length
  let unit := cs1.takeWhile charIsNorm
  let cs2 := cs1.drop unit.length
  let unitS := String.mk unit
  let idTok : Token := .id (String.mk result ++ unitS)
  if unit ≠ [] ∧ ¬ SEC_UNITS.contains unitS ∧ unitS ≠ "i" then
    .ok (idTok, cs2)
  else if unitS = "i" then
    match complexParse result with
    | some (re, im) => .ok (.numTok (.complex re im), cs2)
    | Option.none => .ok (idTok, cs2)
  else
    let isSec := SEC_UNITS.contains unitS
    let mkTok : PyNum → Token := fun v => if isSec then .secTok v else .numTok v
    if result.contains '/' then
      match fracParse result with
      | .ok q => .ok (mkTok (if q.den = 1 then .int q.num else .frac q), cs2)
      | .error .zeroDivisionError => .error .zeroDivisionError
      | .error _ => .ok (idTok, cs2)
    else if result.contains '.' then
      match floatParse result with
      | some q => .ok (mkTok (.float q), cs2)
      | Option.none => .ok (idTok, cs2)
    else
      match intParse result with
      | some n => .ok (mkTok (.int n), cs2)
      | Option.none => .ok (idTok, cs2)

/-- `Lexer.hash_literal`, entered after `#`: `#\x` is a char literal,
`#t`/`#true`/`#f`/`#false` are booleans, anything else is a `MyError`. -/
def lexHash (cs : List Char) : Except Err (Token × List Char) :=
  match cs with
  | '\\' :: rest =>
    match rest with
    | [] => .error (.myError "Expected a character after #\\")
    | c :: r => .ok (.charTok c, r)
  | _ =>
    let result := cs.takeWhile charIsNorm
    let rest := cs.drop result.length
    let s := String.mk result
    if s = "t" ∨ s = "true" then .ok (.boolTok true, rest)
    else if s = "f" ∨ s = "false" then .ok (.boolTok false, rest)
    else .error (.myError ("Unknown hash literal: " ++ s))

/-- `Lexer.quote_literal`, entered after the quote character: only `()` is
accepted (yielding the identifier token `null`); anything else reports the
accumulated text (up to and including the first `)` if any). -/
def lexQuote (cs : List Char) : Except Err (Token × List Char) :=
  match cs with
  | '(' :: rest =>
    match rest with
    | ')' :: r => .ok (.id "null", r)
    | _ =>
      let upto := rest.takeWhile (fun c => c ≠ ')')
      let found := decide (upto.length < rest.length)
      .error (.myError ("Unknown quote literal: (" ++ String.mk upto ++
        (if found then ")" else "")))
  | _ => .error (.myError "Unknown quote literal: ")

/-- The whitespace/comment-skipping prefix of `get_next_token` (fueled; each
comment consumes at least its `;`, so `length + 1` fuel always suffices). -/
def skipWsComments : ℕ → List Char → List Char
  | 0, cs => cs
  | fuel + 1, cs =>
    let cs1 := cs.dropWhile (fun c => spaceChars.contains c)
    match cs1 with
    | ';' :: rest => skipWsComments fuel (rest.dropWhile (fun c => c ≠ '\n'))
    | _ => cs1

/-- `Lexer.get_next_token`: skip whitespace and `;` comments, then dispatch
on the first character: `"` string, bracket, sign-then-digit or digit/dot
number, `#` hash literal, quote literal, otherwise a maximal "normal" run —
an error if it contains a reserved character, an ARR token if it is (or is
prefixed by) an edit-method name, an identifier otherwise. -/
def getNextToken (cs : List Char) : Except Err (Token × List Char) :=
  let cs := skipWsComments (cs.length + 1) cs
  match cs with
  | [] => .ok (.eof, [])
  | '"' :: rest =>
    match lexString rest with
    | .ok (s, r) => .ok (.strTok s, r)
    | .error e => .error e
  | c :: rest =>
    if c = '(' then .ok (.lparen, rest)
    else if c = ')' then .ok (.rparen, rest)
    else if c = '[' then .ok (.lbrac, rest)
    else if c = ']' then .ok (.rbrac, rest)
    else if c = Char.ofNat 123 then .ok (.lcur, rest)
    else if c = Char.ofNat 125 then .ok (.rcur, rest)
    else if (c = '+' || c = '-') &&
        (match rest.head? with
         | some p => p.isDigit || p = '.'
         | Option.none => false) then
      lexNumber (c :: rest)
    else if c.isDigit ∨ c = '.' then lexNumber (c :: rest)
    else if c = '#' then lexHash rest
    else if c = apos then lexQuote rest
    else
      let result := (c :: rest).takeWhile charIsNorm
      let rest2 := (c :: rest).drop result.length
      let s := String.mk result
      if result.any (fun ch => [apos, btick, '|', '\\'].contains ch) then
        .error (.myError ("Symbol has illegal character(s): " ++ s))
      else if METHODS.any (fun m => s = m ∨ s.startsWith (m ++ ":")) then
        .ok (.arr s, rest2)
      else .ok (.id s, rest2)

/-- Repeated `get_next_token` until EOF (fueled; every non-EOF token consumes
at least one character). -/
def tokenizeAux : ℕ → List Char → Except Err (List Token)
  | 0, _ => .error .outOfFuel
  | fuel + 1, cs =>
    match getNextToken cs with
    | .error e => .error e
    | .ok (.eof, _) => .ok []
    | .ok (t, rest) =>
      match tokenizeAux fuel rest with
      | .ok ts => .ok (t :: ts)
      | .error e => .error e

def tokenize (text : String) : Except Err (List Token) :=
  tokenizeAux (text.length + 1) text.toList

/-! ## Parser

`Parser` pulls tokens one at a time; modelled over the token list, with the
empty list playing the EOF token. -/

mutual

/-- `Parser.expr` (fueled): atoms parse to their leaves, a SEC token
desugars to `(exact-round (* value timebase))`, a bracketed form collects
expressions until its own closing bracket (premature EOF is a `MyError`),
and the leftover catch-all (reached on a closing-bracket or EOF token)
consumes the token and collects expressions up to any closer.  An empty
form hits Python's `childs[0]` → `IndexError`. -/
def parseExpr : ℕ → List Token → Except Err (Node × List Token)
  | 0, _ => .error .outOfFuel
  | fuel + 1, toks =>
    match toks with
    | .id v :: rest => .ok (.var v, rest)
    | .arr s :: rest => .ok (.boolArr s, rest)
    | .boolTok b :: rest => .ok (.boolLit b, rest)
    | .numTok v :: rest => .ok (.num v, rest)
    | .strTok s :: rest => .ok (.strLit s, rest)
    | .charTok c :: rest => .ok (.charLit c, rest)
    | .secTok v :: rest =>
      .ok (.manyOp (.var "exact-round")
        [.manyOp (.var "*") [.num v, .var "timebase"]], rest)
    | .lparen :: rest =>
      match parseUntilClose fuel .rparen rest with
      | .error e => .error e
      | .ok (h :: t, rest2) => .ok (.manyOp h t, rest2)
      | .ok ([], _) => .error (.indexError "list index out of range")
    | .lbrac :: rest =>
      match parseUntilClose fuel .rbrac rest with
      | .error e => .error e
      | .ok (h :: t, rest2) => .ok (.manyOp h t, rest2)
      | .ok ([], _) => .error (.indexError "list index out of range")
    | .lcur :: rest =>
      match parseUntilClose fuel .rcur rest with
      | .error e => .error e
      | .ok (h :: t, rest2) => .ok (.manyOp h t, rest2)
      | .ok ([], _) => .error (.indexError "list index out of range")
    | _ :: rest =>
      match parseUntilAnyClose fuel rest with
      | .error e => .error e
      | .ok (h :: rest3, rest2) => .ok (.manyOp h rest3, rest2)
      | .ok ([], _) => .error (.indexError "list index out of range")
    | [] =>
      match parseUntilAnyClose fuel [] with
      | .error e => .error e
      | .ok (h :: rest3, rest2) => .ok (.manyOp h rest3, rest2)
      | .ok ([], _) => .error (.indexError "list index out of range")

/-- The body loop of a bracketed form: expressions until the given closing
token (which is consumed); an EOF first is `MyError("Unexpected EOF")`. -/
def parseUntilClose : ℕ → Token → List Token → Except Err (List Node × List Token)
  | 0, _, _ => .error .outOfFuel
  | fuel + 1, close, toks =>
    match toks with
    | [] => .error (.myError "Unexpected EOF")
    | t :: rest =>
      if t = close then .ok ([], rest)
      else
        match parseExpr fuel (t :: rest) with
        | .error e => .error e
        | .ok (n, toks2) =>
          match parseUntilClose fuel close toks2 with
          | .error e => .error e
          | .ok (ns, toks3) => .ok (n :: ns, toks3)

/-- The loop of `Parser.comp` and of `expr`'s catch-all: expressions until
any closing bracket or EOF (not consumed). -/
def parseUntilAnyClose : ℕ → List Token → Except Err (List Node × List Token)
  | 0, _ => .error .outOfFuel
  | fuel + 1, toks =>
    match toks with
    | [] => .ok ([], [])
    | t :: rest =>
      if t = .rparen ∨ t = .rbrac ∨ t = .rcur then .ok ([], t :: rest)
      else
        match parseExpr fuel (t :: rest) with
        | .error e => .error e
        | .ok (n, toks2) =>
          match parseUntilAnyClose fuel toks2 with
          | .error e => .error e
          | .ok (ns, toks3) => .ok (n :: ns, toks3)

end

/-- `Parser.comp`: the top-level expression sequence (the `Compound`). -/
def parseProgram (toks : List Token) : Except Err (List Node) :=
  match parseUntilAnyClose (2 * toks.length + 2) toks with
  | .error e => .error e
  | .ok (ns, _) => .ok ns

/-- A bridge that yields an empty array for every descriptor; used to
instantiate bridge-parametric statements at concrete inputs. -/
def nullBridge : Bridge := fun _ _ => .ok []

/-! ## Dictionary lemmas -/

theorem find?_map_overwrite (d : List (String × Value)) (k : String) (v : Value) :
    ((d.map (fun p => if p.1 = k then (k, v) else p)).find? (fun p => p.1 = k)) =
      if d.any (fun p => p.1 = k) then some (k, v) else Option.none := by
  induction d with
  | nil => simp
  | cons a d ih =>
    by_cases h : a.1 = k
    · simp [h]
    · simp only [List.map_cons, h, if_false, List.find?, List.any_cons]
      simp [ih]
      have hor : (false || d.any fun p => decide (p.1 = k)) = (d.any fun p => decide (p.1 = k)) :=
        Bool.false_or _
      rw [hor]

theorem find?_append_none (d e : List (String × Value)) (k : String)
    (h : d.find? (fun p => p.1 = k) = Option.none) :
    (d ++ e).find? (fun p => p.1 = k) = e.find? (fun p => p.1 = k) := by
  induction d with
  | nil => simp
  | cons a d ih =>
    simp only [List.cons_append, List.find?] at h ⊢
    cases ha : (decide (a.1 = k)) with
    | true => simp [ha] at h
    | false => simp only [ha] at h ⊢; exact ih h

theorem find?_map_ne (d : List (String × Value)) (k k' : String) (v : Value)
    (h : k' ≠ k) :
    ((d.map (fun p => if p.1 = k then (k, v) else p)).find? (fun p => p.1 = k')) =
      d.find? (fun p => p.1 = k') := by
  induction d with
  | nil => simp
  | cons a d ih =>
    by_cases hk : a.1 = k
    · have h1 : (decide ((k, v).1 = k')) = false := by simp [Ne.symm h]
      have h2 : (decide (a.1 = k')) = false := by simp [hk, Ne.symm h]
      simp only [List.map_cons, hk, if_true, List.find?, h1, h2]
      exact ih
    · simp only [List.map_cons, hk, if_false, List.find?]
      cases hk2 : (decide (a.1 = k')) with
      | true => rfl
      | false => exact ih

theorem find?_append_single_ne (d : List (String × Value)) (k k' : String) (v : Value)
    (h : k' ≠ k) :
    ((d ++ [(k, v)]).find? (fun p => p.1 = k')) = d.find? (fun p => p.1 = k') := by
  induction d with
  | nil => simp [Ne.symm h]
  | cons a d ih =>
    simp only [List.cons_append, List.find?]
    cases hk2 : (decide (a.1 = k')) with
    | true => rfl
    | false => exact ih

theorem dictGet_insert_self (d : List (String × Value)) (k : String) (v : Value) :
    dictGet (dictInsert d k v) k = some v := by
  unfold dictGet dictInsert
  by_cases h : d.any (fun p => p.1 = k)
  · rw [if_pos h, find?_map_overwrite, if_pos h]
    rfl
  · have hf : d.find? (fun p => p.1 = k) = Option.none := by
      rw [List.find?_eq_none]
      intro p hp
      simp only [List.any_eq_true] at h
      simpa using fun hk => h ⟨p, hp, by simpa using hk⟩
    simp [h, find?_append_none d _ k hf]

theorem dictGet_insert_ne (d : List (String × Value)) (k k' : String) (v : Value)
    (h : k' ≠ k) : dictGet (dictInsert d k v) k' = dictGet d k' := by
  unfold dictGet dictInsert
  by_cases ha : d.any (fun p => p.1 = k)
  · rw [if_pos ha, find?_map_ne d k k' v h]
  · rw [if_neg ha, find?_append_single_ne d k k' v h]

theorem dictHas_eq_isSome_dictGet (d : List (String × Value)) (k : String) :
    dictHas d k = (dictGet d k).isSome := by
  unfold dictHas dictGet
  induction d with
  | nil => simp
  | cons a d ih =>
    simp only [List.any_cons, List.find?]
    cases hk : (decide (a.1 = k)) with
    | true => simp
    | false => simpa using ih

/-! ## Claim theorems -/

/-- C1: an `if` expression requires exactly 3 operands (an arity error
otherwise, before anything is evaluated); the first operand must evaluate to
a boolean (a non-boolean condition is a type error, not a truthy coercion);
and exactly one of the two branch operands is evaluated — on a true
condition the result and state are those of the first branch alone, on a
false condition those of the second branch alone, so replacing the untaken
branch by any other node changes nothing and its side effects never occur. -/
theorem C1_if_semantics :
    (∀ (br : Bridge) (fs : Option FileSetup) (fuel : ℕ) (st : InterpState)
        (children : List Node), children.length ≠ 3 →
      visit br fs (fuel + 1) (.manyOp (.var "if") children) st =
        .err (.myError ("if: Arity mismatch. Expected 3, got " ++
          toString children.length)) st)
    ∧ (∀ (br : Bridge) (fs : Option FileSetup) (fuel : ℕ) (st st1 : InterpState)
        (c0 c1 c2 : Node) (v : Value), visit br fs fuel c0 st = .ok v st1 →
      (∀ b, v ≠ .bool b) →
      visit br fs (fuel + 1) (.manyOp (.var "if") [c0, c1, c2]) st =
        .err (.myError "if: test-expr arg must be: boolean?") st1)
    ∧ (∀ (br : Bridge) (fs : Option FileSetup) (fuel : ℕ) (st st1 : InterpState)
        (c0 c1 c2 : Node), visit br fs fuel c0 st = .ok (.bool true) st1 →
      visit br fs (fuel + 1) (.manyOp (.var "if") [c0, c1, c2]) st =
        visit br fs fuel c1 st1)
    ∧ (∀ (br : Bridge) (fs : Option FileSetup) (fuel : ℕ) (st st1 : InterpState)
        (c0 c1 c2 : Node), visit br fs fuel c0 st = .ok (.bool false) st1 →
      visit br fs (fuel + 1) (.manyOp (.var "if") [c0, c1, c2]) st =
        visit br fs fuel c2 st1)
    ∧ (∀ (br : Bridge) (fs : Option FileSetup) (fuel : ℕ) (st st1 : InterpState)
        (c0 c1 c2 c2' : Node), visit br fs fuel c0 st = .ok (.bool true) st1 →
      visit br fs (fuel + 1) (.manyOp (.var "if") [c0, c1, c2]) st =
        visit br fs (fuel + 1) (.manyOp (.var "if") [c0, c1, c2']) st)
    ∧ (∀ (br : Bridge) (fs : Option FileSetup) (fuel : ℕ) (st st1 : InterpState)
        (c0 c1 c1' c2 : Node), visit br fs fuel c0 st = .ok (.bool false) st1 →
      visit br fs (fuel + 1) (.manyOp (.var "if") [c0, c1, c2]) st =
        visit br fs (fuel + 1) (.manyOp (.var "if") [c0, c1', c2]) st) := by
  have htrue : ∀ (br : Bridge) (fs : Option FileSetup) (fuel : ℕ)
      (st st1 : InterpState) (c0 c1 c2 : Node),
      visit br fs fuel c0 st = .ok (.bool true) st1 →
      visit br fs (fuel + 1) (.manyOp (.var "if") [c0, c1, c2]) st =
        visit br fs fuel c1 st1 := by
    intro br fs fuel st st1 c0 c1 c2 h
    simp [visit, h, checkArity]
  have hfalse : ∀ (br : Bridge) (fs : Option FileSetup) (fuel : ℕ)
      (st st1 : InterpState) (c0 c1 c2 : Node),
      visit br fs fuel c0 st = .ok (.bool false) st1 →
      visit br fs (fuel + 1) (.manyOp (.var "if") [c0, c1, c2]) st =
        visit br fs fuel c2 st1 := by
    intro br fs fuel st st1 c0 c1 c2 h
    simp [visit, h, checkArity]
  refine ⟨?_, ?_, htrue, hfalse, ?_, ?_⟩
  · intro br fs fuel st children h
    simp only [visit, checkArity]
    simp [h]
    rfl
  · intro br fs fuel st st1 c0 c1 c2 v h hv
    cases v with
    | bool b => exact absurd rfl (hv b)
    | none => simp [visit, h, checkArity]
    | int n => simp [visit, h, checkArity]
    | frac q => simp [visit, h, checkArity]
    | float q => simp [visit, h, checkArity]
    | complex re im => simp [visit, h, checkArity]
    | str s => simp [visit, h, checkArity]
    | char c => simp [visit, h, checkArity]
    | null => simp [visit, h, checkArity]
    | cons a d => simp [visit, h, checkArity]
    | boolarr xs => simp [visit, h, checkArity]
    | proc p => simp [visit, h, checkArity]
  · intro br fs fuel st st1 c0 c1 c2 c2' h
    rw [htrue br fs fuel st st1 c0 c1 c2 h, htrue br fs fuel st st1 c0 c1 c2' h]
  · intro br fs fuel st st1 c0 c1 c1' c2 h
    rw [hfalse br fs fuel st st1 c0 c1 c2 h, hfalse br fs fuel st st1 c0 c1' c2 h]

/-- C1 witness: `(if #t 1 (display "side effect"))` evaluates to the exact
integer 1 with no output (the untaken `display` never ran), and an `if` with
0 operands is the arity error. -/
theorem C1_if_semantics_witness :
    visit nullBridge Option.none 2 (.manyOp (.var "if")
        [.boolLit true, .num (.int 1), .manyOp (.var "display") [.strLit "side effect"]])
        ⟨GLOBAL_SCOPE, ""⟩ = .ok (.int 1) ⟨GLOBAL_SCOPE, ""⟩
    ∧ visit nullBridge Option.none 1 (.manyOp (.var "if") ([] : List Node)) ⟨[], ""⟩ =
        .err (.myError "if: Arity mismatch. Expected 3, got 0") ⟨[], ""⟩ := by
  constructor
  · have h : visit nullBridge Option.none 1 (.boolLit true) ⟨GLOBAL_SCOPE, ""⟩ =
        .ok (.bool true) ⟨GLOBAL_SCOPE, ""⟩ := rfl
    rw [C1_if_semantics.2.2.1 nullBridge Option.none 1 ⟨GLOBAL_SCOPE, ""⟩
      ⟨GLOBAL_SCOPE, ""⟩ (.boolLit true) (.num (.int 1))
      (.manyOp (.var "display") [.strLit "side effect"]) h]
    rfl
  · have h0 : ([] : List Node).length ≠ 3 := by decide
    exact C1_if_semantics.1 nullBridge Option.none 0 ⟨[], ""⟩ [] h0

/-- C9: a `Var` whose name is bound to the no-value result `None` (as
produced by `define`, `set!`, a false `when` or `display`) raises the same
"is undefined" error as an unbound name — `GLOBAL_SCOPE.get` cannot
distinguish the two — and a `define` whose right-hand side evaluates to the
no-value result creates exactly such a binding: the key is present, yet
looking the variable up errors. -/
theorem C9_none_binding_undefined :
    (∀ (br : Bridge) (fs : Option FileSetup) (fuel : ℕ) (st : InterpState)
        (name : String), dictGet st.scope name = some Value.none →
      visit br fs (fuel + 1) (.var name) st =
        .err (.myError (name ++ " is undefined")) st)
    ∧ (∀ (br : Bridge) (fs : Option FileSetup) (fuel : ℕ) (st : InterpState)
        (name : String), dictGet st.scope name = Option.none →
      visit br fs (fuel + 1) (.var name) st =
        .err (.myError (name ++ " is undefined")) st)
    ∧ (∀ (br : Bridge) (fs : Option FileSetup) (fuel : ℕ) (st st1 : InterpState)
        (x : String) (e : Node), visit br fs fuel e st = .ok .none st1 →
      visit br fs (fuel + 1) (.manyOp (.var "define") [.var x, e]) st =
        .ok .none ⟨dictInsert st1.scope x .none, st1.output⟩
      ∧ dictHas (dictInsert st1.scope x .none) x = true
      ∧ ∀ (fuel2 : ℕ) (out : String),
          visit br fs (fuel2 + 1) (.var x) ⟨dictInsert st1.scope x .none, out⟩ =
            .err (.myError (x ++ " is undefined")) ⟨dictInsert st1.scope x .none, out⟩) := by
  have hNone : ∀ (br : Bridge) (fs : Option FileSetup) (fuel : ℕ) (st : InterpState)
      (name : String), dictGet st.scope name = some Value.none →
      visit br fs (fuel + 1) (.var name) st =
        .err (.myError (name ++ " is undefined")) st := by
    intro br fs fuel st name h
    simp [visit, h]
  refine ⟨hNone, ?_, ?_⟩
  · intro br fs fuel st name h
    simp [visit, h]
  · intro br fs fuel st st1 x e h
    refine ⟨by simp [visit, h, checkArity], ?_, ?_⟩
    · rw [dictHas_eq_isSome_dictGet, dictGet_insert_self]
      rfl
    · intro fuel2 out
      exact hNone br fs fuel2 ⟨dictInsert st1.scope x .none, out⟩ x
        (dictGet_insert_self st1.scope x .none)

/-- C9 witness: after `(define x (when #f 1))` the key `x` is present in the
scope, yet evaluating `x` raises "x is undefined". -/
theorem C9_none_binding_undefined_witness :
    visit nullBridge Option.none 10
        (.manyOp (.var "define") [.var "x", .manyOp (.var "when") [.boolLit false, .num (.int 1)]])
        ⟨GLOBAL_SCOPE, ""⟩ =
      .ok .none ⟨dictInsert GLOBAL_SCOPE "x" .none, ""⟩
    ∧ dictHas (dictInsert GLOBAL_SCOPE "x" .none) "x" = true
    ∧ visit nullBridge Option.none 10 (.var "x") ⟨dictInsert GLOBAL_SCOPE "x" .none, ""⟩ =
        .err (.myError "x is undefined") ⟨dictInsert GLOBAL_SCOPE "x" .none, ""⟩ := by
  have h : visit nullBridge Option.none 9
      (.manyOp (.var "when") [.boolLit false, .num (.int 1)]) ⟨GLOBAL_SCOPE, ""⟩ =
      .ok .none ⟨GLOBAL_SCOPE, ""⟩ := rfl
  have main := C9_none_binding_undefined.2.2 nullBridge Option.none 9
    ⟨GLOBAL_SCOPE, ""⟩ ⟨GLOBAL_SCOPE, ""⟩ "x"
    (.manyOp (.var "when") [.boolLit false, .num (.int 1)]) h
  exact ⟨main.1, main.2.1, main.2.2 9 ""⟩

/-- C10: a `set!` whose target identifier has no binding raises the
set-before-definition error with the state (environment and output)
unchanged, before the value operand is evaluated — the result is the same
error for every value expression, so its side effects never occur. -/
theorem C10_set_unbound_error :
    (∀ (br : Bridge) (fs : Option FileSetup) (fuel : ℕ) (st : InterpState)
        (name : String) (e : Node), dictHas st.scope name = false →
      visit br fs (fuel + 1) (.manyOp (.var "set!") [.var name, e]) st =
        .err (.myError ("Cannot set variable " ++ name ++ " before definition")) st)
    ∧ (∀ (br : Bridge) (fs : Option FileSetup) (fuel : ℕ) (st : InterpState)
        (name : String) (e e' : Node), dictHas st.scope name = false →
      visit br fs (fuel + 1) (.manyOp (.var "set!") [.var name, e]) st =
        visit br fs (fuel + 1) (.manyOp (.var "set!") [.var name, e']) st) := by
  have hmain : ∀ (br : Bridge) (fs : Option FileSetup) (fuel : ℕ) (st : InterpState)
      (name : String) (e : Node), dictHas st.scope name = false →
      visit br fs (fuel + 1) (.manyOp (.var "set!") [.var name, e]) st =
        .err (.myError ("Cannot set variable " ++ name ++ " before definition")) st := by
    intro br fs fuel st name e h
    simp [visit, h, checkArity]
  refine ⟨hmain, ?_⟩
  intro br fs fuel st name e e' h
  rw [hmain br fs fuel st name e h, hmain br fs fuel st name e' h]

/-- C10 witness: `(set! y (display "side effect"))` with `y` unbound raises
the error with no output and the pre-seeded scope untouched. -/
theorem C10_set_unbound_error_witness :
    dictHas GLOBAL_SCOPE "y" = false
    ∧ visit nullBridge Option.none 10
        (.manyOp (.var "set!") [.var "y", .manyOp (.var "display") [.strLit "side effect"]])
        ⟨GLOBAL_SCOPE, ""⟩ =
      .err (.myError "Cannot set variable y before definition") ⟨GLOBAL_SCOPE, ""⟩ := by
  have h : dictHas GLOBAL_SCOPE "y" = false := by decide
  exact ⟨h, C10_set_unbound_error.1 nullBridge Option.none 9 ⟨GLOBAL_SCOPE, ""⟩ "y"
    (.manyOp (.var "display") [.strLit "side effect"]) h⟩

/-- C4 counterexample: `GLOBAL_SCOPE` is a class attribute, so a binding
made by `define` under one `Interpreter` IS visible to a later, separately
constructed `Interpreter` — constructing a new `Interpreter` does not reset
bindings.  Concretely: interpreter #1 (fresh process scope) evaluates
`(define x 1)`; constructing interpreter #2 on the resulting shared scope
still finds `x` (which is not pre-seeded), and evaluating `x` there yields
1, contradicting the claim's "bindings are reset when a new Interpreter is
constructed". -/
theorem C4_counterexample :
    interpret nullBridge Option.none 10
        [.manyOp (.var "define") [.var "x", .num (.int 1)]]
        ⟨interpreterInit GLOBAL_SCOPE Option.none, ""⟩ =
      .ok [.none] ⟨dictInsert GLOBAL_SCOPE "x" (.int 1), ""⟩
    ∧ dictGet (interpreterInit (dictInsert GLOBAL_SCOPE "x" (.int 1)) Option.none) "x" =
        some (.int 1)
    ∧ visit nullBridge Option.none 10 (.var "x")
        ⟨interpreterInit (dictInsert GLOBAL_SCOPE "x" (.int 1)) Option.none, ""⟩ =
        .ok (.int 1) ⟨dictInsert GLOBAL_SCOPE "x" (.int 1), ""⟩
    ∧ dictGet GLOBAL_SCOPE "x" = Option.none := by
  refine ⟨rfl, ?_, rfl, ?_⟩ <;> decide

/-- C4 amended: `GLOBAL_SCOPE` is shared by all `Interpreter` instances:
construction never resets or removes a binding (it only adds/overwrites
`timebase` when a file setup is supplied), so bindings made by `define` or
`set!` under one `Interpreter` remain visible to later, separately
constructed `Interpreter`s; only the first `Interpreter` of a fresh process
starts from exactly the pre-seeded constants and builtin procedures (plus
`timebase` when a file setup is supplied). -/
theorem C4_scope_shared_persistence :
    (∀ (scope : List (String × Value)) (fs : Option FileSetup) (name : String)
        (v : Value), dictGet scope name = some v → name ≠ "timebase" →
      dictGet (interpreterInit scope fs) name = some v)
    ∧ interpreterInit GLOBAL_SCOPE Option.none = GLOBAL_SCOPE
    ∧ (∀ fs : FileSetup, interpreterInit GLOBAL_SCOPE (some fs) =
        dictInsert GLOBAL_SCOPE "timebase" (.frac fs.tb))
    ∧ (∀ (br : Bridge) (fs : Option FileSetup) (fuel : ℕ) (st st1 : InterpState)
        (x : String) (e : Node) (v : Value), visit br fs fuel e st = .ok v st1 →
        x ≠ "timebase" →
      visit br fs (fuel + 1) (.manyOp (.var "define") [.var x, e]) st =
        .ok .none ⟨dictInsert st1.scope x v, st1.output⟩
      ∧ ∀ fs2 : Option FileSetup,
          dictGet (interpreterInit (dictInsert st1.scope x v) fs2) x = some v) := by
  have h1 : ∀ (scope : List (String × Value)) (fs : Option FileSetup) (name : String)
      (v : Value), dictGet scope name = some v → name ≠ "timebase" →
      dictGet (interpreterInit scope fs) name = some v := by
    intro scope fs name v h hne
    cases fs with
    | none => exact h
    | some f => rw [interpreterInit, dictGet_insert_ne _ _ _ _ hne]; exact h
  refine ⟨h1, rfl, fun fs => rfl, ?_⟩
  intro br fs fuel st st1 x e v h hx
  refine ⟨by simp [visit, h, checkArity], ?_⟩
  intro fs2
  exact h1 _ fs2 x v (dictGet_insert_self st1.scope x v) hx

/-- C4 amended witness: the `(define x 1)` chain of the counterexample,
through the amended theorem. -/
theorem C4_scope_shared_persistence_witness :
    visit nullBridge Option.none 10
        (.manyOp (.var "define") [.var "x", .num (.int 1)]) ⟨GLOBAL_SCOPE, ""⟩ =
      .ok .none ⟨dictInsert GLOBAL_SCOPE "x" (.int 1), ""⟩
    ∧ dictGet (interpreterInit (dictInsert GLOBAL_SCOPE "x" (.int 1)) Option.none) "x" =
        some (.int 1) := by
  have h : visit nullBridge Option.none 9 (.num (.int 1)) ⟨GLOBAL_SCOPE, ""⟩ =
      .ok (.int 1) ⟨GLOBAL_SCOPE, ""⟩ := rfl
  have hx : "x" ≠ "timebase" := by decide
  have main := C4_scope_shared_persistence.2.2.2 nullBridge Option.none 9
    ⟨GLOBAL_SCOPE, ""⟩ ⟨GLOBAL_SCOPE, ""⟩ "x" (.num (.int 1)) (.int 1) h hx
  exact ⟨main.1, main.2 Option.none⟩

/-- C5 counterexample: the source `"abc` opens a string literal that
reaches end of input without a closing quote, yet the lexer does NOT fail:
it returns an STR token carrying the accumulated text. -/
theorem C5_counterexample :
    tokenize "\"abc" = .ok [.strTok "abc"]
    ∧ getNextToken ("\"abc".toList) = .ok (.strTok "abc", []) := ⟨rfl, rfl⟩

/-- C5 amended: only the four escapes `\n \t \" \\` are accepted inside a
string literal — any other escaped character is a lex error — but an
UNTERMINATED string is not a lex error: when the input ends without a
closing quote the lexer returns the accumulated text as the string's
content.  (A backslash as the very last character is neither: it crashes
with an uncaught `TypeError` from `None in 'nt"\\'`; the adjacent
"Unexpected EOF while parsing" `MyError` is dead code.) -/
theorem C5_string_lexing :
    (∀ cs : List Char, '"' ∉ cs → '\\' ∉ cs →
      lexString cs = .ok (String.mk cs, []))
    ∧ (∀ (c : Char) (cs : List Char), c ∉ (['n', 't', '"', '\\'] : List Char) →
      lexString ('\\' :: c :: cs) = .error (.myError
        ("Unexpected character " ++ String.singleton c ++ " during escape sequence")))
    ∧ (∀ cs : List Char, '"' ∉ cs → '\\' ∉ cs →
      lexString (cs ++ ['\\']) = .error (.typeError
        "'in <string>' requires string as left operand, not NoneType"))
    ∧ (∀ (cs : List Char) (s : String) (r : List Char), lexString cs = .ok (s, r) →
      lexString ('\\' :: 'n' :: cs) = .ok ("\n" ++ s, r)
      ∧ lexString ('\\' :: 't' :: cs) = .ok ("\t" ++ s, r)
      ∧ lexString ('\\' :: '"' :: cs) = .ok ("\"" ++ s, r)
      ∧ lexString ('\\' :: '\\' :: cs) = .ok ("\\" ++ s, r))
    ∧ (∀ cs : List Char, lexString ('"' :: cs) = .ok ("", cs))
    ∧ (∀ (cs : List Char) (s : String) (r : List Char), lexString cs = .ok (s, r) →
      getNextToken ('"' :: cs) = .ok (.strTok s, r)) := by
  refine ⟨?_, ?_, ?_, ?_, fun cs => rfl, ?_⟩
  · intro cs hq hb
    induction cs with
    | nil => rfl
    | cons c rest ih =>
      have hcq : c ≠ '"' := fun h => hq (h ▸ List.mem_cons_self c rest)
      have hcb : c ≠ '\\' := fun h => hb (h ▸ List.mem_cons_self c rest)
      have ih' := ih (fun h => hq (List.mem_cons_of_mem c h))
        (fun h => hb (List.mem_cons_of_mem c h))
      simp [lexString, hcq, hcb, ih']
      rfl
  · intro c cs hc
    have h1 : c ≠ 'n' := fun h => hc (by simp [h])
    have h2 : c ≠ 't' := fun h => hc (by simp [h])
    have h3 : c ≠ '"' := fun h => hc (by simp [h])
    have h4 : c ≠ '\\' := fun h => hc (by simp [h])
    simp [lexString, h1, h2, h3, h4]
  · intro cs hq hb
    induction cs with
    | nil => rfl
    | cons c rest ih =>
      have hcq : c ≠ '"' := fun h => hq (h ▸ List.mem_cons_self c rest)
      have hcb : c ≠ '\\' := fun h => hb (h ▸ List.mem_cons_self c rest)
      have ih' := ih (fun h => hq (List.mem_cons_of_mem c h))
        (fun h => hb (List.mem_cons_of_mem c h))
      simp [lexString, hcq, hcb, ih']
  · intro cs s r h
    refine ⟨?_, ?_, ?_, ?_⟩ <;> simp [lexString, h]
  · intro cs s r h
    have hws : List.dropWhile (fun c => decide (c ∈ spaceChars)) ('"' :: cs) = '"' :: cs := by
      rw [List.dropWhile_cons]
      simp [spaceChars]
    simp [getNextToken, skipWsComments, hws, h]

/-- C5 amended witness: `"a\qb"` is the escape lex error; `"ab` (unterminated,
no escapes) lexes to the content `ab`; and a full `\n`-escape round trip. -/
theorem C5_string_lexing_witness :
    lexString ('\\' :: 'q' :: "b\"".toList) =
      .error (.myError "Unexpected character q during escape sequence")
    ∧ lexString ("ab".toList) = .ok ("ab", [])
    ∧ lexString ('\\' :: 'n' :: "x\"".toList) = .ok ("\nx", [])
    ∧ getNextToken ('"' :: "ab".toList) = .ok (.strTok "ab", []) := by
  have hq : 'q' ∉ (['n', 't', '"', '\\'] : List Char) := by decide
  have hab : lexString ("ab".toList) = .ok ("ab", []) :=
    C5_string_lexing.1 ("ab".toList) (by decide) (by decide)
  have hx : lexString ("x\"".toList) = .ok ("x", []) := rfl
  refine ⟨C5_string_lexing.2.1 'q' ("b\"".toList) hq, hab, ?_, ?_⟩
  · exact (C5_string_lexing.2.2.2.1 ("x\"".toList) "x" [] hx).1
  · exact C5_string_lexing.2.2.2.2.2 ("ab".toList) "ab" [] hab

/-- The contract `check_args` selects for position `i`
(`types[-1] if i >= len(types) else types[i]`) is, for a nonempty contract
list, the one at index `min i (len - 1)`: the last declared contract applies
to every position beyond the declared list. -/
theorem contractAt_eq (types : List Contract) (i : ℕ) (h : types ≠ []) :
    (if i ≥ types.length then types.getLast? else types.get? i) =
      some (types.getD (min i (types.length - 1)) Contract.isNum) := by
  by_cases hi : i ≥ types.length
  · rw [if_pos hi, List.getLast?_eq_getElem?]
    have hlen : 0 < types.length := List.length_pos.mpr h
    have h1 : types.length - 1 < types.length := by omega
    have hmin : min i (types.length - 1) = types.length - 1 := by omega
    rw [hmin, List.getElem?_eq_getElem h1, List.getD_eq_getElem?_getD,
      List.getElem?_eq_getElem h1]
    rfl
  · push_neg at hi
    have hmin : min i (types.length - 1) = i := by omega
    rw [if_neg (by omega), hmin, List.get?_eq_getElem?, List.getElem?_eq_getElem hi,
      List.getD_eq_getElem?_getD, List.getElem?_eq_getElem hi]
    rfl

/-- The contract loop of `check_args`, characterized for a nonempty contract
list and any start index: it succeeds iff every argument passes the contract
at `min (i + j) (len - 1)`, and on failure the error is exactly the
"expects" message. -/
theorem checkContracts_spec (o : String) (types : List Contract) (h : types ≠ []) :
    ∀ (values : List Value) (i : ℕ),
      (checkContracts o types values i = .ok () ↔
        ∀ j < values.length,
          (types.getD (min (i + j) (types.length - 1)) Contract.isNum).check
            (values.getD j .none) = true)
      ∧ (checkContracts o types values i = .ok ()
         ∨ checkContracts o types values i = .error (.myError (expectsMsg o types))) := by
  intro values
  induction values with
  | nil =>
    intro i
    exact ⟨by simp [checkContracts], Or.inl rfl⟩
  | cons v rest ih =>
    intro i
    have hunf : checkContracts o types (v :: rest) i =
        (if (types.getD (min i (types.length - 1)) Contract.isNum).check v then
          checkContracts o types rest (i + 1)
        else .error (.myError (expectsMsg o types))) := by
      simp only [checkContracts]
      rw [contractAt_eq types i h]
    by_cases hc : (types.getD (min i (types.length - 1)) Contract.isNum).check v = true
    · rw [hunf, if_pos hc]
      constructor
      · rw [(ih (i + 1)).1]
        constructor
        · intro hall j hj
          cases j with
          | zero => simpa using hc
          | succ j' =>
            have hj' : j' < rest.length := by simpa using Nat.lt_of_succ_lt_succ hj
            have h2 := hall j' hj'
            rw [List.getD_cons_succ]
            have harith : i + (j' + 1) = i + 1 + j' := by omega
            rw [harith]
            exact h2
        · intro hall j hj
          have h2 := hall (j + 1) (by simpa using Nat.succ_lt_succ hj)
          rw [List.getD_cons_succ] at h2
          have harith : i + (j + 1) = i + 1 + j := by omega
          rw [harith] at h2
          exact h2
      · exact (ih (i + 1)).2
    · rw [hunf, if_neg hc]
      constructor
      · constructor
        · intro habs
          exact absurd habs (by simp)
        · intro hall
          exact absurd (by simpa using hall 0 (by simp)) hc
      · exact Or.inr rfl

/-- C6: `(+)` with zero arguments evaluates to the exact integer 0 (the
contract loop of `check_args` checks nothing and `sum(())` is `0`); applying
the fixed-arity-2 comparison `>` to 1 or 3 evaluated arguments yields the
arity error naming the procedure, the expected count and the actual count —
whatever the argument values are, so `>`'s underlying comparison never
runs. -/
theorem C6_arity :
    (∀ (br : Bridge) (fs : Option FileSetup) (fuel : ℕ) (out : String),
      visit br fs (fuel + 2) (.manyOp (.var "+") []) ⟨GLOBAL_SCOPE, out⟩ =
        .ok (.int 0) ⟨GLOBAL_SCOPE, out⟩)
    ∧ (∀ values : List Value, values.length = 1 ∨ values.length = 3 →
      checkArgs ">" values (2, some 2) (some [.isReal, .isReal]) =
        .error (.myError (">: Arity mismatch. Expected 2, got " ++
          toString values.length)))
    ∧ (∀ (br : Bridge) (fs : Option FileSetup) (fuel : ℕ) (out : String)
        (st1 : InterpState) (children : List Node) (values : List Value),
      visitList br fs fuel children ⟨GLOBAL_SCOPE, out⟩ = .ok values st1 →
      values.length = 1 ∨ values.length = 3 →
      visit br fs (fuel + 1) (.manyOp (.var ">") children) ⟨GLOBAL_SCOPE, out⟩ =
        .err (.myError (">: Arity mismatch. Expected 2, got " ++
          toString values.length)) st1) := by
  have harity : ∀ values : List Value, values.length = 1 ∨ values.length = 3 →
      checkArgs ">" values (2, some 2) (some [.isReal, .isReal]) =
        .error (.myError (">: Arity mismatch. Expected 2, got " ++
          toString values.length)) := by
    intro values h
    rcases h with h | h <;>
      · unfold checkArgs checkArity
        rw [h]
        rfl
  refine ⟨fun br fs fuel out => rfl, harity, ?_⟩
  intro br fs fuel out st1 children values hlist hlen
  cases fuel with
  | zero => exact absurd hlist (by simp [visitList])
  | succ k =>
    have hdict : dictGet GLOBAL_SCOPE ">" =
        some (.proc ⟨">", .gt, (2, some 2), some [.isReal, .isReal]⟩) := rfl
    simp [visit, hdict, hlist, harity values hlen]

/-- C6 witness: `(+)` evaluates to the exact integer 0, `(> 5)` and
`(> 5 2 1)` are the arity errors. -/
theorem C6_arity_witness :
    visit nullBridge Option.none 2 (.manyOp (.var "+") []) ⟨GLOBAL_SCOPE, ""⟩ =
      .ok (.int 0) ⟨GLOBAL_SCOPE, ""⟩
    ∧ visit nullBridge Option.none 3 (.manyOp (.var ">") [.num (.int 5)])
        ⟨GLOBAL_SCOPE, ""⟩ =
      .err (.myError ">: Arity mismatch. Expected 2, got 1") ⟨GLOBAL_SCOPE, ""⟩
    ∧ visit nullBridge Option.none 5
        (.manyOp (.var ">") [.num (.int 5), .num (.int 2), .num (.int 1)])
        ⟨GLOBAL_SCOPE, ""⟩ =
      .err (.myError ">: Arity mismatch. Expected 2, got 3") ⟨GLOBAL_SCOPE, ""⟩ := by
  refine ⟨C6_arity.1 nullBridge Option.none 0 "", ?_, ?_⟩
  · have h1 : visitList nullBridge Option.none 2 [.num (.int 5)] ⟨GLOBAL_SCOPE, ""⟩ =
        .ok [.int 5] ⟨GLOBAL_SCOPE, ""⟩ := rfl
    exact C6_arity.2.2 nullBridge Option.none 2 "" ⟨GLOBAL_SCOPE, ""⟩ _ _ h1 (Or.inl rfl)
  · have h3 : visitList nullBridge Option.none 4
        [.num (.int 5), .num (.int 2), .num (.int 1)] ⟨GLOBAL_SCOPE, ""⟩ =
        .ok [.int 5, .int 2, .int 1] ⟨GLOBAL_SCOPE, ""⟩ := rfl
    exact C6_arity.2.2 nullBridge Option.none 4 "" ⟨GLOBAL_SCOPE, ""⟩ _ _ h3 (Or.inr rfl)

/-- C7: per-position contracts — the contract loop succeeds iff every
evaluated argument at position `j` passes the contract at position
`min j (len - 1)` (the last declared contract covering all later
positions); a failure is exactly the wrong-type error naming the procedure
and all the expected type descriptions; and the application path of the
evaluator runs the procedure's underlying computation exactly when
`check_args` (arity, then contracts) succeeded, yielding the `check_args`
error otherwise. -/
theorem C7_contracts :
    (∀ (o : String) (types : List Contract) (values : List Value), types ≠ [] →
      (checkContracts o types values 0 = .ok () ↔
        ∀ j < values.length,
          (types.getD (min j (types.length - 1)) Contract.isNum).check
            (values.getD j .none) = true))
    ∧ (∀ (o : String) (types : List Contract) (values : List Value), types ≠ [] →
      checkContracts o types values 0 = .ok ()
      ∨ checkContracts o types values 0 = .error (.myError (expectsMsg o types)))
    ∧ (∀ (o : String) (values : List Value) (arity : ℕ × Option ℕ)
        (types : List Contract) (e : Err), checkArity o values.length arity = .error e →
      checkArgs o values arity (some types) = .error e)
    ∧ (∀ (br : Bridge) (fs : Option FileSetup) (fuel : ℕ) (st st1 st2 : InterpState)
        (f : String) (p : ProcSpec) (children : List Node) (values : List Value),
      f ≠ "if" → f ≠ "when" → f ≠ "define" → f ≠ "set!" →
      visit br fs fuel (.var f) st = .ok (.proc p) st1 →
      visitList br fs fuel children st1 = .ok values st2 →
      visit br fs (fuel + 1) (.manyOp (.var f) children) st =
        (match checkArgs p.name values p.arity p.contracts with
         | .error e => Res.err e st2
         | .ok _ => runProc p.impl values st2)) := by
  refine ⟨?_, ?_, ?_, ?_⟩
  · intro o types values h
    simpa using (checkContracts_spec o types h values 0).1
  · intro o types values h
    exact (checkContracts_spec o types h values 0).2
  · intro o values arity types e h
    unfold checkArgs
    rw [h]
  · intro br fs fuel st st1 st2 f p children values h1 h2 h3 h4 hget hlist
    simp [visit, h1, h2, h3, h4, hget, hlist]

/-- C7 witness: `(string-upcase 5)` fails with the wrong-type error naming
`string?`, through the application-path and contract-loop halves of the
theorem. -/
theorem C7_contracts_witness :
    visit nullBridge Option.none 3 (.manyOp (.var "string-upcase") [.num (.int 5)])
        ⟨GLOBAL_SCOPE, ""⟩ =
      .err (.myError "string-upcase expects: string?") ⟨GLOBAL_SCOPE, ""⟩
    ∧ checkContracts "string-upcase" [.isStr] [.int 5] 0 =
        .error (.myError "string-upcase expects: string?") := by
  have hget : visit nullBridge Option.none 2 (.var "string-upcase")
      ⟨GLOBAL_SCOPE, ""⟩ =
      .ok (.proc ⟨"string-upcase", .stringUpcase, (1, some 1), some [.isStr]⟩)
        ⟨GLOBAL_SCOPE, ""⟩ := rfl
  have hlist : visitList nullBridge Option.none 2 [.num (.int 5)]
      ⟨GLOBAL_SCOPE, ""⟩ = .ok [.int 5] ⟨GLOBAL_SCOPE, ""⟩ := rfl
  constructor
  · rw [C7_contracts.2.2.2 nullBridge Option.none 2 ⟨GLOBAL_SCOPE, ""⟩
      ⟨GLOBAL_SCOPE, ""⟩ ⟨GLOBAL_SCOPE, ""⟩ "string-upcase"
      ⟨"string-upcase", .stringUpcase, (1, some 1), some [.isStr]⟩
      [.num (.int 5)] [.int 5] (by decide) (by decide) (by decide) (by decide)
      hget hlist]
    rfl
  · rfl

/-- Exact values in the numeric-tower sense of the claims: an integer or a
rational (`is_exact` minus its Python-`bool` quirk, which cannot reach the
arithmetic procedures because their `is_num` contract excludes bools). -/
def exactNum : Value → Bool
  | .int _ => true
  | .frac _ => true
  | _ => false

/-- `runProc` on `*` with two arguments is `reduce(mul, vals, 1)`. -/
theorem runProc_mul (a b : Value) (st : InterpState) :
    runProc .mulImpl [a, b] st = .ok (pyMul (pyMul (.int 1) a) b) st := rfl

/-- `runProc` on `exact-round` is Python `round`: round-half-even to an
exact integer. -/
theorem runProc_exactRound (v : Value) (st : InterpState) :
    runProc .exactRound [v] st = .ok (.int (roundHalfEven v.toRealQ)) st := rfl

/-- `runProc` on `equal?` is `is_equal`. -/
theorem runProc_equalQ (a b : Value) (st : InterpState) :
    runProc .equalQ [a, b] st = .ok (is_equal a b) st := rfl

/-- `runProc` on `/` is `div`. -/
theorem runProc_div (vals : List Value) (st : InterpState) :
    runProc .divImpl vals st = liftE (div vals) st := rfl

/-- The exact-division fold of `div` with no zero divisor: successive
`Fraction(acc, b)` is division by the product. -/
theorem divFold_ok (rest : List Value) : ∀ acc : ℚ, (∀ r ∈ rest, r.toRealQ ≠ 0) →
    rest.foldlM (fun (acc : ℚ) (b : Value) =>
      if b.toRealQ = 0 then Except.error Err.zeroDivisionError
      else Except.ok (acc / b.toRealQ)) acc =
    Except.ok (acc / (rest.map Value.toRealQ).prod) := by
  induction rest with
  | nil =>
    intro acc _
    simp [List.foldlM]
    rfl
  | cons r rs ih =>
    intro acc hz
    have hr : r.toRealQ ≠ 0 := hz r (List.mem_cons_self r rs)
    have hrs : ∀ x ∈ rs, x.toRealQ ≠ 0 := fun x hx => hz x (List.mem_cons_of_mem r hx)
    simp only [List.foldlM_cons, if_neg hr]
    rw [show (Except.ok (acc / r.toRealQ) >>= fun s =>
        rs.foldlM (fun (acc : ℚ) (b : Value) =>
          if b.toRealQ = 0 then Except.error Err.zeroDivisionError
          else Except.ok (acc / b.toRealQ)) s) =
      rs.foldlM (fun (acc : ℚ) (b : Value) =>
          if b.toRealQ = 0 then Except.error Err.zeroDivisionError
          else Except.ok (acc / b.toRealQ)) (acc / r.toRealQ) from rfl]
    rw [ih (acc / r.toRealQ) hrs]
    rw [List.map_cons, List.prod_cons, div_div]

/-- The exact-division fold of `div` with a zero divisor raises
`ZeroDivisionError`. -/
theorem divFold_zero (rest : List Value) : ∀ acc : ℚ, (∃ r ∈ rest, r.toRealQ = 0) →
    rest.foldlM (fun (acc : ℚ) (b : Value) =>
      if b.toRealQ = 0 then Except.error Err.zeroDivisionError
      else Except.ok (acc / b.toRealQ)) acc =
    Except.error Err.zeroDivisionError := by
  induction rest with
  | nil => intro acc h; simp at h
  | cons r rs ih =>
    intro acc hz
    by_cases hr : r.toRealQ = 0
    · simp only [List.foldlM_cons, if_pos hr]
      rfl
    · have : ∃ x ∈ rs, x.toRealQ = 0 := by
        rcases hz with ⟨x, hx, hx0⟩
        rcases List.mem_cons.mp hx with h | h
        · exact absurd (h ▸ hx0) hr
        · exact ⟨x, h, hx0⟩
      simp only [List.foldlM_cons, if_neg hr]
      rw [show (Except.ok (acc / r.toRealQ) >>= fun s =>
          rs.foldlM (fun (acc : ℚ) (b : Value) =>
            if b.toRealQ = 0 then Except.error Err.zeroDivisionError
            else Except.ok (acc / b.toRealQ)) s) =
        rs.foldlM (fun (acc : ℚ) (b : Value) =>
            if b.toRealQ = 0 then Except.error Err.zeroDivisionError
            else Except.ok (acc / b.toRealQ)) (acc / r.toRealQ) from rfl]
      exact ih (acc / r.toRealQ) this

/-- An exact value has promotion rank at most 1 (its Python type is neither
`float` nor `complex`). -/
theorem exactNum_rank {v : Value} (h : exactNum v = true) : numRank v ≤ 1 := by
  cases v <;> simp_all [exactNum, numRank]

/-- C2: `equal?` between a float and a non-float (in either order) is
false; `(equal? 0 0.0)` evaluates to `#f` and `(equal? 1/2 1/2)` to `#t`;
and `equal?` on two boolean arrays is true iff they have the same length
and the same bit at every index. -/
theorem C2_equal_exactness :
    (∀ a b : Value, a.isFloatV ≠ b.isFloatV → is_equal a b = .bool false)
    ∧ (∀ xs ys : List Bool, is_equal (.boolarr xs) (.boolarr ys) = .bool true ↔
        (xs.length = ys.length ∧ ∀ i < xs.length, xs.getD i false = ys.getD i false))
    ∧ (∀ (br : Bridge) (fs : Option FileSetup) (fuel : ℕ) (out : String),
      visit br fs (fuel + 4) (.manyOp (.var "equal?") [.num (.int 0), .num (.float 0)])
        ⟨GLOBAL_SCOPE, out⟩ = .ok (.bool false) ⟨GLOBAL_SCOPE, out⟩)
    ∧ (∀ (br : Bridge) (fs : Option FileSetup) (fuel : ℕ) (out : String),
      visit br fs (fuel + 4)
          (.manyOp (.var "equal?") [.num (.frac (1 / 2)), .num (.frac (1 / 2))])
        ⟨GLOBAL_SCOPE, out⟩ = .ok (.bool true) ⟨GLOBAL_SCOPE, out⟩) := by
  refine ⟨?_, ?_, fun br fs fuel out => rfl, ?_⟩
  · intro a b h
    cases a <;> cases b <;> simp_all [is_equal, Value.isFloatV]
  · intro xs ys
    constructor
    · intro h
      have hxy : xs = ys := by
        by_contra hne
        simp [is_equal, hne] at h
      subst hxy
      exact ⟨rfl, fun i _ => rfl⟩
    · rintro ⟨hlen, hget⟩
      have hxy : xs = ys := by
        apply List.ext_getElem hlen
        intro i h1 h2
        have := hget i h1
        rwa [List.getD_eq_getElem?_getD, List.getElem?_eq_getElem h1,
          List.getD_eq_getElem?_getD, List.getElem?_eq_getElem h2] at this
      simp [is_equal, hxy]
  · intro br fs fuel out
    have hq : dictGet GLOBAL_SCOPE "equal?" =
        some (.proc ⟨"equal?", .equalQ, (2, some 2), Option.none⟩) := rfl
    simp only [visit, visitList]
    simp [hq]
    simp [checkArgs, checkArity, PyNum.toValue]
    rw [runProc_equalQ]
    simp [is_equal, Value.isFloatV, pyEq, Value.toComplexPair]

/-- C2 witness: `(equal? 0.5 1)` (one float) is false via the general
float/non-float part, and the elementwise array characterization at
`[true, false]` vs `[true, false]` and vs `[true]`. -/
theorem C2_equal_exactness_witness :
    is_equal (.float (1 / 2)) (.int 1) = .bool false
    ∧ is_equal (.boolarr [true, false]) (.boolarr [true, false]) = .bool true
    ∧ ¬ is_equal (.boolarr [true, false]) (.boolarr [true]) = .bool true
    ∧ visit nullBridge Option.none 4
        (.manyOp (.var "equal?") [.num (.int 0), .num (.float 0)]) ⟨GLOBAL_SCOPE, ""⟩ =
      .ok (.bool false) ⟨GLOBAL_SCOPE, ""⟩ := by
  refine ⟨?_, ?_, ?_, C2_equal_exactness.2.2.1 nullBridge Option.none 0 ""⟩
  · exact C2_equal_exactness.1 (.float (1 / 2)) (.int 1) (by decide)
  · exact (C2_equal_exactness.2.1 [true, false] [true, false]).mpr
      ⟨rfl, by decide⟩
  · intro h
    have := (C2_equal_exactness.2.1 [true, false] [true]).mp h
    simp at this

/-- C3: `/` over exact operands (ints or rationals): with no zero divisor
the result is the exact rational quotient of the head by the product of the
rest, reduced to lowest terms (numerator and denominator coprime), returned
as an exact integer exactly when the reduced denominator is 1; a zero
divisor raises `MyError("division by zero")`.  The single-operand form is
the reciprocal.  `(/ 6 3)` evaluates to the exact integer 2 and `(/ 1 0)`
to the division-by-zero error. -/
theorem C3_div_exact :
    (∀ (v : Value) (rest : List Value), (v :: rest).all exactNum = true → rest ≠ [] →
      (∀ r ∈ rest, r.toRealQ ≠ 0) →
      div (v :: rest) =
        .ok (if (v.toRealQ / (rest.map Value.toRealQ).prod).den = 1 then
          .int (v.toRealQ / (rest.map Value.toRealQ).prod).num
        else .frac (v.toRealQ / (rest.map Value.toRealQ).prod))
      ∧ (v.toRealQ / (rest.map Value.toRealQ).prod).num.natAbs.Coprime
          (v.toRealQ / (rest.map Value.toRealQ).prod).den)
    ∧ (∀ (v : Value) (rest : List Value), (v :: rest).all exactNum = true →
      (∃ r ∈ rest, r.toRealQ = 0) →
      div (v :: rest) = .error (.myError "division by zero"))
    ∧ (∀ v : Value, exactNum v = true →
      (v.toRealQ ≠ 0 →
        div [v] = .ok (if (1 / v.toRealQ).den = 1 then .int (1 / v.toRealQ).num
          else .frac (1 / v.toRealQ)))
      ∧ (v.toRealQ = 0 → div [v] = .error (.myError "division by zero")))
    ∧ (∀ (br : Bridge) (fs : Option FileSetup) (fuel : ℕ) (out : String),
      visit br fs (fuel + 4) (.manyOp (.var "/") [.num (.int 6), .num (.int 3)])
        ⟨GLOBAL_SCOPE, out⟩ = .ok (.int 2) ⟨GLOBAL_SCOPE, out⟩)
    ∧ (∀ (br : Bridge) (fs : Option FileSetup) (fuel : ℕ) (out : String),
      visit br fs (fuel + 4) (.manyOp (.var "/") [.num (.int 1), .num (.int 0)])
        ⟨GLOBAL_SCOPE, out⟩ =
        .err (.myError "division by zero") ⟨GLOBAL_SCOPE, out⟩) := by
  have hguard : ∀ (vals : List Value), vals.all exactNum = true →
      (vals.all (fun v => numRank v ≤ 1)) = true := by
    intro vals h
    rw [List.all_eq_true] at h ⊢
    intro x hx
    simpa using exactNum_rank (h x hx)
  have hdiv_ne : ∀ (vals : List Value), ¬ vals.length = 1 →
      div vals = (match divTry vals with
        | .error .zeroDivisionError => .error (.myError "division by zero")
        | r => r) := by
    intro vals h
    unfold div
    rw [if_neg h]
  have htry : ∀ (v : Value) (rest : List Value),
      ((v :: rest).all (fun w => numRank w ≤ 1)) = true →
      divTry (v :: rest) =
        (match rest.foldlM (fun (acc : ℚ) (b : Value) =>
            if b.toRealQ = 0 then Except.error Err.zeroDivisionError
            else Except.ok (acc / b.toRealQ)) v.toRealQ with
         | .error e => .error e
         | .ok q => .ok (if q.den = 1 then .int q.num else .frac q)) := by
    intro v rest hg
    unfold divTry
    rw [if_pos hg]
  have h1 : ∀ (v : Value) (rest : List Value), (v :: rest).all exactNum = true →
      rest ≠ [] → (∀ r ∈ rest, r.toRealQ ≠ 0) →
      div (v :: rest) =
        .ok (if (v.toRealQ / (rest.map Value.toRealQ).prod).den = 1 then
          .int (v.toRealQ / (rest.map Value.toRealQ).prod).num
        else .frac (v.toRealQ / (rest.map Value.toRealQ).prod)) := by
    intro v rest hall hrest hz
    have hlen : ¬ ((v :: rest).length = 1) := by
      cases rest with
      | nil => exact absurd rfl hrest
      | cons a l => simp
    rw [hdiv_ne _ hlen, htry v rest (hguard _ hall), divFold_ok rest v.toRealQ hz]
  have h2 : ∀ (v : Value) (rest : List Value), (v :: rest).all exactNum = true →
      (∃ r ∈ rest, r.toRealQ = 0) →
      div (v :: rest) = .error (.myError "division by zero") := by
    intro v rest hall hz
    have hrest : rest ≠ [] := by
      rcases hz with ⟨r, hr, _⟩
      exact List.ne_nil_of_mem hr
    have hlen : ¬ ((v :: rest).length = 1) := by
      cases rest with
      | nil => exact absurd rfl hrest
      | cons a l => simp
    rw [hdiv_ne _ hlen, htry v rest (hguard _ hall), divFold_zero rest v.toRealQ hz]
  have h3 : ∀ v : Value, exactNum v = true →
      (v.toRealQ ≠ 0 →
        div [v] = .ok (if (1 / v.toRealQ).den = 1 then .int (1 / v.toRealQ).num
          else .frac (1 / v.toRealQ)))
      ∧ (v.toRealQ = 0 → div [v] = .error (.myError "division by zero")) := by
    intro v hv
    have hall1 : ([Value.int 1, v].all (fun w => numRank w ≤ 1)) = true := by
      rw [List.all_eq_true]
      intro x hx
      rcases List.mem_cons.mp hx with rfl | hx
      · simp [numRank]
      · rcases List.mem_singleton.mp hx with rfl
        simpa using exactNum_rank hv
    have hstep : div [v] = (match divTry [Value.int 1, v] with
        | .error .zeroDivisionError => .error (.myError "division by zero")
        | r => r) := by
      unfold div
      rw [if_pos (show ([v] : List Value).length = 1 from rfl)]
    constructor
    · intro h0
      rw [hstep, htry (Value.int 1) [v] hall1,
        divFold_ok [v] (Value.int 1).toRealQ
          (by intro r hr; rcases List.mem_singleton.mp hr with rfl; exact h0)]
      simp [Value.toRealQ]
    · intro h0
      rw [hstep, htry (Value.int 1) [v] hall1,
        divFold_zero [v] (Value.int 1).toRealQ ⟨v, List.mem_singleton.mpr rfl, h0⟩]
  refine ⟨fun v rest hall hrest hz => ⟨h1 v rest hall hrest hz,
    (v.toRealQ / (rest.map Value.toRealQ).prod).reduced⟩, h2, h3, ?_, ?_⟩
  · intro br fs fuel out
    have hdg : dictGet GLOBAL_SCOPE "/" =
        some (.proc ⟨"/", .divImpl, (1, Option.none), some [.isNum]⟩) := rfl
    simp only [visit, visitList]
    simp [hdg]
    simp [checkArgs, checkArity, checkContracts, Contract.check, PyNum.toValue]
    rw [runProc_div, h1 (.int 6) [.int 3] (by decide) (by decide)
      (by intro r hr; rcases List.mem_singleton.mp hr with rfl; decide)]
    have hq : Value.toRealQ (.int 6) / (List.map Value.toRealQ [.int 3]).prod = 2 := by
      norm_num [Value.toRealQ]
    rw [hq]
    norm_num [liftE]
  · intro br fs fuel out
    have hdg : dictGet GLOBAL_SCOPE "/" =
        some (.proc ⟨"/", .divImpl, (1, Option.none), some [.isNum]⟩) := rfl
    simp only [visit, visitList]
    simp [hdg]
    simp [checkArgs, checkArity, checkContracts, Contract.check, PyNum.toValue]
    rw [runProc_div, h2 (.int 1) [.int 0] (by decide)
      ⟨.int 0, List.mem_singleton.mpr rfl, by decide⟩]
    rfl

/-- C3 witness: `div` on `[6, 3]` is the exact integer 2, on `[1, 2, 3]` the
reduced rational 1/6, on `[1, 0]` the division-by-zero error, and the
evaluator agrees on `(/ 6 3)`. -/
theorem C3_div_exact_witness :
    div [.int 6, .int 3] = .ok (.int 2)
    ∧ div [.int 1, .int 2, .int 3] = .ok (.frac (1 / 6))
    ∧ div [.int 1, .int 0] = .error (.myError "division by zero")
    ∧ visit nullBridge Option.none 4 (.manyOp (.var "/") [.num (.int 6), .num (.int 3)])
        ⟨GLOBAL_SCOPE, ""⟩ = .ok (.int 2) ⟨GLOBAL_SCOPE, ""⟩ := by
  refine ⟨?_, ?_, ?_, C3_div_exact.2.2.2.1 nullBridge Option.none 0 ""⟩
  · have h := (C3_div_exact.1 (.int 6) [.int 3] (by decide) (by decide)
      (by intro r hr; rcases List.mem_singleton.mp hr with rfl; decide)).1
    rw [h]
    have hq : Value.toRealQ (.int 6) / (List.map Value.toRealQ [.int 3]).prod = 2 := by
      norm_num [Value.toRealQ]
    rw [hq]
    norm_num
  · have h := (C3_div_exact.1 (.int 1) [.int 2, .int 3] (by decide) (by decide)
      (by intro r hr
          rcases List.mem_cons.mp hr with rfl | hr
          · decide
          · rcases List.mem_singleton.mp hr with rfl; decide)).1
    rw [h]
    have hq : Value.toRealQ (.int 1) / (List.map Value.toRealQ [.int 2, .int 3]).prod =
        1 / 6 := by
      norm_num [Value.toRealQ]
    rw [hq]
    norm_num
  · exact C3_div_exact.2.1 (.int 1) [.int 0] (by decide)
      ⟨.int 0, List.mem_singleton.mpr rfl, by decide⟩

/-- C8: a "seconds" token with numeric payload `v` parses to exactly the
AST of `(exact-round (* v timebase))` — so evaluating the literal IS
evaluating the desugared expression — and for an exact payload with
`timebase` bound (as the host binds it) to a rational `t`, evaluation
yields the exact integer `round-half-even(v * t)`. -/
theorem C8_seconds_desugar :
    (∀ (fuel : ℕ) (v : PyNum) (rest : List Token),
      parseExpr (fuel + 1) (.secTok v :: rest) =
        .ok (.manyOp (.var "exact-round")
          [.manyOp (.var "*") [.num v, .var "timebase"]], rest))
    ∧ (∀ (br : Bridge) (fs : Option FileSetup) (fuel : ℕ) (out : String)
        (v : PyNum) (t : ℚ), exactNum v.toValue = true →
      visit br fs (fuel + 6) (.manyOp (.var "exact-round")
          [.manyOp (.var "*") [.num v, .var "timebase"]])
        ⟨interpreterInit GLOBAL_SCOPE (some ⟨t⟩), out⟩ =
        .ok (.int (roundHalfEven (v.toValue.toRealQ * t)))
          ⟨interpreterInit GLOBAL_SCOPE (some ⟨t⟩), out⟩) := by
  refine ⟨fun fuel v rest => rfl, ?_⟩
  intro br fs fuel out v t h
  have her : dictGet (interpreterInit GLOBAL_SCOPE (some ⟨t⟩)) "exact-round" =
      some (.proc ⟨"exact-round", .exactRound, (1, some 1), some [.isReal]⟩) := by
    rw [interpreterInit, dictGet_insert_ne _ _ _ _ (by decide)]
    rfl
  have hmul : dictGet (interpreterInit GLOBAL_SCOPE (some ⟨t⟩)) "*" =
      some (.proc ⟨"*", .mulImpl, (0, Option.none), some [.isNum]⟩) := by
    rw [interpreterInit, dictGet_insert_ne _ _ _ _ (by decide)]
    rfl
  have htb : dictGet (interpreterInit GLOBAL_SCOPE (some ⟨t⟩)) "timebase" =
      some (.frac t) := by
    rw [interpreterInit]
    exact dictGet_insert_self _ _ _
  generalize hS : interpreterInit GLOBAL_SCOPE (some ⟨t⟩) = S at her hmul htb ⊢
  cases v with
  | int n =>
    simp only [visit, visitList]
    simp [her, hmul, htb]
    simp [checkArgs, checkArity, checkContracts, Contract.check, PyNum.toValue]
    rw [runProc_mul]
    simp [pyMul, mkNum, Value.asNum, Value.toComplexPair, numRank, checkArgs,
      checkArity, checkContracts, Contract.check]
    rw [runProc_exactRound]
    simp [Value.toRealQ, PyNum.toValue]
  | frac q =>
    simp only [visit, visitList]
    simp [her, hmul, htb]
    simp [checkArgs, checkArity, checkContracts, Contract.check, PyNum.toValue]
    rw [runProc_mul]
    simp [pyMul, mkNum, Value.asNum, Value.toComplexPair, numRank, checkArgs,
      checkArity, checkContracts, Contract.check]
    rw [runProc_exactRound]
    simp [Value.toRealQ, PyNum.toValue]
  | float q => simp [exactNum, PyNum.toValue] at h
  | complex re im => simp [exactNum, PyNum.toValue] at h

/-- C8 witness: the parse of a `2.5`-seconds token, and the evaluation of
the desugared expression for payload 5/2 with timebase 30, yielding the
exact integer frame count 75. -/
theorem C8_seconds_desugar_witness :
    parseExpr 1 [.secTok (.frac (5 / 2))] =
      .ok (.manyOp (.var "exact-round")
        [.manyOp (.var "*") [.num (.frac (5 / 2)), .var "timebase"]], [])
    ∧ visit nullBridge Option.none 6 (.manyOp (.var "exact-round")
        [.manyOp (.var "*") [.num (.frac (5 / 2)), .var "timebase"]])
      ⟨interpreterInit GLOBAL_SCOPE (some ⟨30⟩), ""⟩ =
      .ok (.int 75) ⟨interpreterInit GLOBAL_SCOPE (some ⟨30⟩), ""⟩ := by
  constructor
  · exact C8_seconds_desugar.1 0 (.frac (5 / 2)) []
  · have h := C8_seconds_desugar.2 nullBridge Option.none 0 "" (.frac (5 / 2)) 30
      (by decide)
    rw [h]
    norm_num [PyNum.toValue, Value.toRealQ]
    rw [show roundHalfEven 75 = 75 from by
      unfold roundHalfEven
      norm_num]

end AutoEditor
